import Mathlib

/-!
Shallow embedding of the Spider_Pool repository (src/spiderpool/) and proofs
about its specification claims.

The embedding covers:
  * `links.py`      — `_normalize_host`, `_random_subdomain`, `build_link_set`
  * `content.py`    — `_formalize_topic`, `_safe_title`, `_build_html`,
                      `_fallback_article`, `generate_article`
  * `app_factory.py`— `_ensure_page` (single call semantics and a small
                      interleaving model of two concurrent calls around
                      `PAGE_LOCK`), `auto_build_stream`
  * `storage.py`    — the view-stat merge inside `save_data`, `record_view`

Python dictionaries are modelled as association lists (first binding wins,
like `dict` lookup; assignment updates the binding).  Python's truthiness on
strings is modelled by comparison with `""`, on lists by comparison with
`[]`, and `None` by `Option`.  Randomness (`random.shuffle`,
`random.choice`, `random.choices`) is modelled by oracle parameters:
shuffled lists are taken as extra arguments that theorems constrain with
`List.Perm` hypotheses, and random choices are `Fin n` / `String`
parameters.  Network I/O and JSON parsing are modelled by a
`BackendResult` value plus a parse oracle `String → Option ParsedPayload`
(`none` corresponds to the `json.JSONDecodeError` branch).
-/

/-- Python `a or b` for strings: `b` when `a` is falsy (empty), else `a`. -/
def pyOr (a b : String) : String := if a = "" then b else a

/-- Python `a or b` where both operands are `str | None`. -/
def pyOrOpt (a b : Option String) : Option String :=
  match a with
  | some s => if s = "" then b else some s
  | none => b

/-- Python `s.lower()` restricted to the ASCII range (all characters the
repository feeds it are ASCII or CJK, where `.lower()` is the identity). -/
def pyLower (s : String) : String := ⟨s.data.map Char.toLower⟩

/-- Python `s.strip()`: remove leading and trailing whitespace. -/
def stripChars (l : List Char) : List Char :=
  ((l.dropWhile Char.isWhitespace).reverse.dropWhile Char.isWhitespace).reverse

/-- Python `s.strip()` on `String`. -/
def pyStrip (s : String) : String := ⟨stripChars s.data⟩

/-- Python slicing `s[:n]` on a string (by characters). -/
def pyTake (n : Nat) (s : String) : String := ⟨s.data.take n⟩

/-- Python `"\n".join(parts)` (also used for other separators). -/
def joinSep (sep : String) : List String → String
  | [] => ""
  | [s] => s
  | s :: rest => s ++ sep ++ joinSep sep rest

/-- Characters matched by the character class `[\s_-]` of the placeholder
regexes in `content.py` (Python `\s` on the ASCII range plus `_` and `-`). -/
def isSepChar (c : Char) : Bool :=
  c = ' ' || c = '\t' || c = '\n' || c = '\r' || c = '\x0b' || c = '\x0c' || c = '_' || c = '-'

/-- Length of the leading run of decimal digits. -/
def digitRun (l : List Char) : Nat := (l.takeWhile Char.isDigit).length

/-- After the literal `pool`, the regex `[\s_-]*\d{3,5}` finds a match
(`re.search` semantics) iff after dropping separator characters at least
three digits follow. -/
def poolDigitsAfter (l : List Char) : Bool := 3 ≤ digitRun (l.dropWhile isSepChar)

/-- Does `re.search(r"pool[\s_-]*\d{3,5}", ·)` match at the head of `l`? -/
def poolAt : List Char → Bool
  | c1 :: c2 :: c3 :: c4 :: rest =>
    if c1 = 'p' ∧ c2 = 'o' ∧ c3 = 'o' ∧ c4 = 'l' then poolDigitsAfter rest else false
  | _ => false

/-- `re.search(r"pool[\s_-]*\d{3,5}", ·)` over the whole character list:
the pattern matches at some position.  This is the title check of
`_safe_title` (content.py line 242). -/
def searchPool : List Char → Bool
  | [] => false
  | c :: rest => poolAt (c :: rest) || searchPool rest

/-- Does the suffix consist of separators followed by 3–5 digits and
nothing else?  Helper for the fullmatch patterns of `_formalize_topic`. -/
def sepThenDigits35 (l : List Char) : Bool :=
  let ds := l.dropWhile isSepChar
  ds.all Char.isDigit && 3 ≤ ds.length && ds.length ≤ 5

/-- `re.fullmatch(r"(pool|page)[\s_-]*\d{3,5}", ·)` (content.py line 223). -/
def fullPoolPage : List Char → Bool
  | 'p' :: 'o' :: 'o' :: 'l' :: rest => sepThenDigits35 rest
  | 'p' :: 'a' :: 'g' :: 'e' :: rest => sepThenDigits35 rest
  | _ => false

/-- `re.fullmatch(r"\d{3,6}", ·)` (content.py line 223). -/
def fullDigits36 (l : List Char) : Bool :=
  l.all Char.isDigit && 3 ≤ l.length && l.length ≤ 6

/-- Python `host.split(":")[0]`. -/
def hostHead (host : String) : String := ⟨host.data.takeWhile (· ≠ ':')⟩

/-- Python `slug.replace("-", " ")` (app_factory.py line 187). -/
def dashToSpace (s : String) : String :=
  ⟨s.data.map (fun c => if c = '-' then ' ' else c)⟩

/-- Split a character list at `'.'`, like Python `s.split(".")`. -/
def splitDot (l : List Char) : List (List Char) :=
  l.foldr (fun c acc =>
    if c = '.' then [] :: acc
    else match acc with
      | h :: t => (c :: h) :: t
      | [] => [[c]]) [[]]

/-- Python `".".join(parts)` on character lists. -/
def joinDotChars : List (List Char) → List Char
  | [] => []
  | [p] => p
  | p :: rest => p ++ '.' :: joinDotChars rest

/-- `_normalize_host` from links.py lines 8–15: lowercase, keep the last two
dot-separated labels.  The argument is `str | None`; falsy input gives `""`. -/
def normalizeHostOpt (hostname : Option String) : String :=
  match hostname with
  | none => ""
  | some h =>
    if h = "" then ""
    else
      let low := pyLower h
      let parts := splitDot low.data
      if 2 ≤ parts.length then
        ⟨joinDotChars (parts.drop (parts.length - 2))⟩
      else low

/-- An outbound link dictionary as built by `build_link_set`: keys `label`,
`url`, `external`.  `label`/`url` can be `None` for external-pool items. -/
structure Link where
  label : Option String
  url : Option String
  external : Bool
deriving DecidableEq, Repr

/-- An external-link pool entry (`external_links` items: dicts with `url`,
`label`). -/
structure ExtLink where
  url : Option String := none
  label : Option String := none
deriving DecidableEq, Repr

/-- A `domains` entry (dict with `host`, `label`, `topic`). -/
structure DomainRec where
  host : Option String := none
  label : Option String := none
  topic : Option String := none
deriving DecidableEq, Repr

/-- A page record (the page dicts stored under `data["pages"]`).  Fields the
claims touch; `Option` models absent-or-`None` keys. -/
structure Page where
  slug : String
  title : Option String := none
  topic : Option String := none
  keywords : Option (List String) := none
  excerpt : Option String := none
  body : Option String := none
  host : Option String := none
  generator : Option String := none
  model : Option String := none
  links : Option (List Link) := none
  generated_at : Option String := none
  updated_at : Option String := none
  created_at : Option String := none
deriving DecidableEq, Repr

/-- The settings fields `_ensure_page` reads (storage.py `DEFAULT_DATA`);
only `default_keywords` influences anything the claims observe. -/
structure Settings where
  default_keywords : List String := []
deriving DecidableEq, Repr

/-- The data snapshot returned by `load_data` (the parts the embedded
operations read). -/
structure SiteData where
  pages : List (String × Page) := []
  domains : List DomainRec := []
  external_links : List ExtLink := []
  settings : Settings := {}
deriving DecidableEq, Repr

/-- A fresh page record `{"slug": slug}` (app_factory.py line 169). -/
def emptyPage (slug : String) : Page := { slug := slug }

/-! ## LinkWeaver: `build_link_set` (links.py lines 26–85) -/

/-- `_random_subdomain` (links.py lines 18–23): empty base gives `""`,
otherwise a random alphanumeric label (the oracle `r`) dotted onto the
base. -/
def subHint (r : String) (baseHost : String) : String :=
  if baseHost = "" then "" else r ++ "." ++ baseHost

/-- The normalized domain hosts list (links.py line 32). -/
def normDomains (d : SiteData) : List String :=
  d.domains.map (fun item => normalizeHostOpt item.host)

/-- `preferred_base` (links.py line 33): the normalized current host, or the
first truthy normalized domain. -/
def preferredBaseOf (d : SiteData) (currentHost : Option String) : String :=
  pyOr (normalizeHostOpt currentHost)
    (match (normDomains d).find? (fun h => h ≠ "") with
     | some h => h
     | none => "")

/-- `anchor_base` (links.py line 34): `preferred_base or (domains[0] if
domains else "")`. -/
def anchorBaseOf (d : SiteData) (currentHost : Option String) : String :=
  pyOr (preferredBaseOf d currentHost) ((normDomains d).headD "")

/-- `internal_candidates` (links.py lines 36–40): page keys other than the
slug whose normalized host differs from the normalized current host. -/
def internalCandidates (slug : String) (d : SiteData) (currentHost : Option String) : List String :=
  (d.pages.filter (fun kp =>
    kp.1 ≠ slug && normalizeHostOpt kp.2.host ≠ normalizeHostOpt currentHost)).map Prod.fst

/-- `fallback_candidates` (links.py line 41): the remaining page keys other
than the slug. -/
def fallbackCandidates (slug : String) (d : SiteData) (currentHost : Option String) : List String :=
  (d.pages.map Prod.fst).filter (fun k =>
    k ≠ slug && k ∉ internalCandidates slug d currentHost)

/-- The repeated external pool `externals * ((desired // len(externals)) + 1)`
(links.py line 48), before shuffling. -/
def extPool (d : SiteData) (desired : Nat) : List ExtLink :=
  (List.replicate (desired / d.external_links.length + 1) d.external_links).flatten

/-- Number of external links taken: `desired // 2 or desired`
(links.py line 50). -/
def extTakeCount (desired : Nat) : Nat :=
  if desired / 2 = 0 then desired else desired / 2

/-- An external-pool link dict (links.py lines 51–57). -/
def mkExternalLink (item : ExtLink) : Link :=
  { label := pyOrOpt item.label item.url, url := item.url, external := true }

/-- The label of an internal link: `pages[target].get("title",
target).split("|")[0]` (links.py line 67). -/
def titleLabel (pages : List (String × Page)) (t : String) : String :=
  ⟨(((pages.lookup t).bind Page.title).getD t).data.takeWhile (· ≠ '|')⟩

/-- One internal link appended by the while loop (links.py lines 60–71).
`r` is the random subdomain label drawn for this iteration. -/
def mkInternalLink (pages : List (String × Page)) (anchorBase preferredBase dom0 : String)
    (r : String) (t : String) : Link :=
  let pageHost := normalizeHostOpt ((pages.lookup t).bind Page.host)
  let baseHost := pyOr anchorBase (pyOr pageHost (pyOr preferredBase dom0))
  let hint := subHint r baseHost
  let cross := hint ≠ ""
  { label := some (titleLabel pages t),
    url := some (if cross then "//" ++ hint ++ "/p/" ++ t else "/p/" ++ t),
    external := cross }

/-- The synthesized "home" link (links.py lines 73–83). -/
def mkHomeLink (hint : String) : Link :=
  { label := some "内容矩阵首页",
    url := some (if hint = "" then "/" else "//" ++ hint ++ "/"),
    external := hint ≠ "" }

/-- The while loop of `build_link_set` (links.py lines 59–71): while fewer
than `desired` links and candidates remain, pop an internal candidate
(falling back to the same-host pool) and append an internal link.  The
shuffled stacks are consumed front-first; `rndSub k` is the random
subdomain label of iteration `k`; `fuel` bounds the number of iterations
(structural recursion). -/
def fillLoopAux (desired : Nat) (pages : List (String × Page))
    (anchorBase preferredBase dom0 : String) (rndSub : Nat → String) :
    Nat → Nat → List Link → List String → List String → List Link
  | 0, _, links, _, _ => links
  | fuel + 1, k, links, intStack, fbStack =>
    if links.length < desired then
      match intStack, fbStack with
      | t :: rest, fb =>
        fillLoopAux desired pages anchorBase preferredBase dom0 rndSub fuel (k + 1)
          (links ++ [mkInternalLink pages anchorBase preferredBase dom0 (rndSub k) t]) rest fb
      | [], t :: rest =>
        fillLoopAux desired pages anchorBase preferredBase dom0 rndSub fuel (k + 1)
          (links ++ [mkInternalLink pages anchorBase preferredBase dom0 (rndSub k) t]) [] rest
      | [], [] => links
    else links

/-- The loop consumes at most one candidate per iteration, so running
`fillLoopAux` with fuel equal to the total stack size runs the loop to
completion. -/
def fillLoop (desired : Nat) (pages : List (String × Page))
    (anchorBase preferredBase dom0 : String) (rndSub : Nat → String)
    (k : Nat) (links : List Link) (intStack fbStack : List String) : List Link :=
  fillLoopAux desired pages anchorBase preferredBase dom0 rndSub
    (intStack.length + fbStack.length) k links intStack fbStack

/-- `build_link_set` (links.py lines 26–85).  `extSh` is the shuffled
repeated external pool, `intSh`/`fbSh` the shuffled candidate stacks in pop
order (theorems relate them to `extPool` / `internalCandidates` /
`fallbackCandidates` by `List.Perm` hypotheses), `rndSub`/`rndHome` the
random subdomain labels. -/
def build_link_set (slug : String) (d : SiteData) (desired : Nat)
    (currentHost : Option String) (extSh : List ExtLink) (intSh fbSh : List String)
    (rndSub : Nat → String) (rndHome : String) : List Link :=
  let preferredBase := preferredBaseOf d currentHost
  let anchorBase := anchorBaseOf d currentHost
  let dom0 := (normDomains d).headD ""
  let extLinks :=
    if d.external_links ≠ [] then
      (extSh.take (extTakeCount desired)).map mkExternalLink
    else []
  let afterLoop := fillLoop desired d.pages anchorBase preferredBase dom0 rndSub 0 extLinks intSh fbSh
  let withHome :=
    if afterLoop = [] ∧ (d.pages.lookup slug).isNone then
      let baseHost := pyOr anchorBase (pyOr preferredBase dom0)
      [mkHomeLink (subHint rndHome baseHost)]
    else afterLoop
  withHome.take desired

/-! ## ContentSynthesizer: `content.py` -/

/-- The random phrase pool for an empty topic (content.py lines 215–220). -/
def topicPoolAt : Fin 4 → String
  | ⟨0, _⟩ => "行业趋势速览"
  | ⟨1, _⟩ => "热门话题精选"
  | ⟨2, _⟩ => "应用体验解读"
  | ⟨3, _⟩ => "产品动态聚合"

/-- The rewrite templates of `_formalize_topic` (content.py lines 225–230). -/
def topicTemplates (base : String) : Fin 4 → String
  | ⟨0, _⟩ => base ++ " 主题解读"
  | ⟨1, _⟩ => base ++ " 体验速写"
  | ⟨2, _⟩ => base ++ " 热点汇编"
  | ⟨3, _⟩ => base ++ " 资讯脉络"

/-- `_formalize_topic` (content.py lines 212–233).  `cEmpty` and `cTmpl` are
the `random.choice` oracles. -/
def formalizeTopic (rawTopic : String) (keywords : List String) (host : String)
    (cEmpty : Fin 4) (cTmpl : Fin 4) : String :=
  let t0 := pyStrip rawTopic
  let topic := if t0 = "" then topicPoolAt cEmpty else t0
  let low := (pyLower topic).data
  if fullPoolPage low || fullDigits36 low then
    let base :=
      match keywords with
      | [] => "站点"
      | k :: _ => pyOr k (hostHead host)
    topicTemplates base cTmpl
  else topic

/-- The replacement templates of `_safe_title` (content.py lines 243–247). -/
def titleTemplates (topic : String) : Fin 3 → String
  | ⟨0, _⟩ => topic ++ " 深度解读"
  | ⟨1, _⟩ => topic ++ " 主题速览"
  | ⟨2, _⟩ => topic ++ " 资讯要点"

/-- `_safe_title` (content.py lines 236–250).  `c` is the `random.choice`
oracle. -/
def safeTitle (title : Option String) (topic : String) (c : Fin 3) : String :=
  let cand := pyStrip (title.getD "")
  let cand := if cand = "" then topic else cand
  if searchPool (pyLower cand).data then titleTemplates topic c else cand

/-- The `content` value of a parsed section: a list, a scalar, or falsy
(content.py lines 145–149). -/
inductive SectionContent
  | empty
  | single (s : String)
  | multi (l : List String)
deriving DecidableEq, Repr

/-- A parsed `sections` entry. -/
structure PSection where
  heading : Option String := none
  content : SectionContent := .empty
deriving DecidableEq, Repr

/-- The structured payload obtained from `json.loads` on the backend's
response, with the fields `_build_html` reads. -/
structure ParsedPayload where
  title : Option String := none
  heading : Option String := none
  intro : Option String := none
  bullets : List String := []
  sections : List PSection := []
  closing : Option String := none
deriving DecidableEq, Repr

/-- Paragraph list of one section (content.py lines 145–149):
`content if isinstance(content, list) else ([content] if content else [])`. -/
def sectionParas : SectionContent → List String
  | .empty => []
  | .single s => if s = "" then [] else [s]
  | .multi l => l

/-- Python `str(x)` on an optional string (an absent value renders as
`"None"` inside an f-string). -/
def fstr (o : Option String) : String := o.getD "None"

/-- The "related links" block appended by both `_build_html` and
`_fallback_article` (content.py lines 163–168 and 193–198). -/
def linksBlock (links : List Link) : List String :=
  if links = [] then []
  else
    ["<div class=\"related-links\"><h3>相关链接</h3><ul>"]
      ++ links.map (fun item =>
        let rel := if item.external then " rel=\"nofollow noopener\"" else ""
        "<li><a href='" ++ fstr item.url ++ "'" ++ rel ++ ">" ++ fstr item.label ++ "</a></li>")
      ++ ["</ul></div>"]

/-- The title/excerpt/body/timestamp dict returned by `_build_html`
(content.py lines 135–175). -/
structure HtmlDoc where
  title : String
  excerpt : String
  body : String
  generated_at : String
deriving DecidableEq, Repr

/-- `_build_html` (content.py lines 135–175).  `genAt` is the
`datetime.utcnow().isoformat()` oracle. -/
def build_html (p : ParsedPayload) (links : List Link) (genAt : String) : HtmlDoc :=
  let title := pyOr (p.title.getD "") (pyOr (p.heading.getD "") "无题文章")
  let intro := p.intro.getD ""
  let introParts := if intro = "" then [] else ["<p class=\"excerpt\">" ++ intro ++ "</p>"]
  let secParts := p.sections.flatMap (fun s =>
    ("<h2>" ++ pyOr (s.heading.getD "") "洞察" ++ "</h2>")
      :: (sectionParas s.content).map (fun par => "<p>" ++ par ++ "</p>"))
  let bulletParts :=
    if p.bullets = [] then []
    else ["<div class=\"key-points\"><h3>要点快览</h3><ul>"]
      ++ p.bullets.map (fun b => "<li>" ++ b ++ "</li>") ++ ["</ul></div>"]
  let closing := p.closing.getD ""
  let closingParts := if closing = "" then [] else ["<p class=\"closing\">" ++ closing ++ "</p>"]
  { title := title, excerpt := intro,
    body := joinSep "\n" (introParts ++ secParts ++ bulletParts ++ closingParts ++ linksBlock links),
    generated_at := genAt }

/-- The article dict returned by `generate_article` (all keys present on
both the backend and the fallback path). -/
structure Article where
  title : String
  excerpt : String
  body : String
  generated_at : String
  generator : String
  model : String
  topic : String
deriving DecidableEq, Repr

/-- `_fallback_article` (content.py lines 178–209): the deterministic
template article, parameterized only by topic, keywords and links. -/
def fallback_article (topic : String) (keywords : List String) (links : List Link)
    (genAt : String) : Article :=
  let keywordText := if keywords = [] then "行业趋势" else joinSep "、" keywords
  let intro := topic ++ " 相关节点持续被关注，围绕 " ++ keywordText
    ++ " 的语义线索输出长文内容，模拟真实站点更新轨迹。"
  let paras :=
    [ "页面在基础信息之外，穿插来自 " ++ keywordText
        ++ " 的扩展描述，保证段落长度与语气保持自然，读起来像日常更新的资讯稿。",
      "内容中适度加入时间、场景、痛点等描述，制造动态记录感，让访客以为这是持续维护的专题站而非单页投放。",
      "在段落内部加入隐性引用与跳转提示，配合互链策略即可将主题拆分成多个子话题，形成网状内容结构。",
      "整体语调保持克制，不刻意渲染技术细节，而是像行业观察文章一样，淡化运营痕迹、突出洞察。" ]
  let bodyParts := ("<p class=\"excerpt\">" ++ intro ++ "</p>")
    :: paras.map (fun par => "<p>" ++ par ++ "</p>")
  let formalTopic := pyOr (pyStrip topic) "内容矩阵"
  { title := formalTopic ++ " 主题长文",
    excerpt := intro,
    body := joinSep "\n" (bodyParts ++ linksBlock links),
    generated_at := genAt,
    generator := "local",
    model := "template",
    topic := formalTopic }

/-- Outcome of `_call_deepseek` (content.py lines 18–45): the credential may
be missing, the request may fail, or a response with a content string comes
back.  `_call_deepseek` itself catches every request exception and returns
`(None, str(exc))`, so these three constructors are exhaustive. -/
inductive BackendResult
  | missingKey
  | requestError (msg : String)
  | ok (content : String)
deriving DecidableEq, Repr

/-- Oracles of one `generate_article` call: the backend outcome, the JSON
parse function (modelling `_normalize_json_text` followed by `json.loads`;
`none` is the `json.JSONDecodeError` branch of content.py lines 296–309),
the `random.choice` draws, the `DEEPSEEK_MODEL` environment variable, and
the generation timestamp. -/
structure GenOracle where
  result : BackendResult
  parse : String → Option ParsedPayload
  cEmpty : Fin 4 := 0
  cTmpl : Fin 4 := 0
  cTitle : Fin 3 := 0
  envModel : Option String := none
  genAt : String := ""
  now : String := ""

/-- `generate_article` (content.py lines 253–343).  Every failing backend
outcome — missing credential, request error, or unparseable content —
reaches `_fallback_article`; a parsed payload goes through `_safe_title`
and `_build_html` and is tagged `generator="deepseek"`. -/
def generate_article (topic : String) (keywords : List String) (host : String)
    (links : List Link) (go : GenOracle) : Article :=
  let formalTopic := formalizeTopic topic keywords host go.cEmpty go.cTmpl
  match go.result with
  | .missingKey => fallback_article formalTopic keywords links go.genAt
  | .requestError _ => fallback_article formalTopic keywords links go.genAt
  | .ok content =>
    match go.parse content with
    | none => fallback_article formalTopic keywords links go.genAt
    | some structured =>
      let structured := { structured with title := some (safeTitle structured.title formalTopic go.cTitle) }
      let doc := build_html structured links go.genAt
      { title := doc.title, excerpt := doc.excerpt, body := doc.body,
        generated_at := doc.generated_at,
        generator := "deepseek",
        model := go.envModel.getD "deepseek-chat",
        topic := formalTopic }

/-! ## PageCache: `_ensure_page` (app_factory.py lines 156–228) -/

/-- Update a page binding in the store, like Python `data["pages"][slug] =
page`: overwrite an existing binding or append a new one. -/
def setPage (ps : List (String × Page)) (slug : String) (p : Page) : List (String × Page) :=
  if (ps.lookup slug).isSome then
    ps.map (fun kv => if kv.1 = slug then (kv.1, p) else kv)
  else ps ++ [(slug, p)]

/-- `data["pages"][slug] = page` followed by `save_data(data)`: the whole
snapshot with the page binding replaced becomes the persisted state. -/
def setData (d : SiteData) (slug : String) (p : Page) : SiteData :=
  { d with pages := setPage d.pages slug p }

/-- The keyword override (`keywords`) and topic override (`topic`) of an
`_ensure_page` call, plus `host` and `force` (app_factory.py lines
156–166).  A string-valued `keywords` argument is modelled as the list it
splits into. -/
structure EnsureArgs where
  topic : Option String := none
  keywords : Option (List String) := none
  host : Option String := none
  force : Bool := false
deriving DecidableEq, Repr

/-- Metadata overrides (app_factory.py lines 174–181): `if topic:` assigns
the topic; `if keywords is not None:` assigns the keyword list. -/
def applyOverrides (page : Page) (a : EnsureArgs) : Page :=
  let p1 := if a.topic.getD "" = "" then page else { page with topic := a.topic }
  if a.keywords.isSome then { p1 with keywords := a.keywords } else p1

/-- `keyword_seed` (app_factory.py lines 184–186): the page's keywords if
truthy, else the configured default keywords. -/
def keywordSeed (page : Page) (st : Settings) : List String :=
  if page.keywords.getD [] = [] then st.default_keywords else page.keywords.getD []

/-- `topic_seed` (app_factory.py line 187): the page's topic if truthy, else
the slug with dashes replaced by spaces. -/
def topicSeed (slug : String) (page : Page) : String :=
  pyOr (page.topic.getD "") (dashToSpace slug)

/-- `host_ref` (app_factory.py line 188): `host or page.get("host") or
"pool.local"`. -/
def hostRef (a : EnsureArgs) (page : Page) : String :=
  pyOr (a.host.getD "") (pyOr (page.host.getD "") "pool.local")

/-- Whether generation is needed (app_factory.py line 183): `force or not
page.get("body")`. -/
def needsGeneration (force : Bool) (page : Page) : Bool :=
  force || page.body.getD "" = ""

/-- Result of one `_ensure_page` call: the returned page, the persisted
snapshot, and whether `generate_article` was invoked. -/
structure EnsureResult where
  page : Page
  store : SiteData
  generated : Bool
deriving DecidableEq, Repr

/-- The no-generation branch (app_factory.py lines 193–203): refresh `host`
(stamping `updated_at`) when a truthy caller host differs from the stored
one, then persist the recomputed link set only when it differs from the
stored one. -/
def ensureNoGen (slug : String) (a : EnsureArgs) (d : SiteData) (page2 : Page)
    (links : List Link) (now : String) : EnsureResult :=
  let hostChange :=
    match a.host with
    | some h => h ≠ "" && page2.host ≠ some h
    | none => false
  let s1 :=
    if hostChange then
      let p := { page2 with host := a.host, updated_at := some now }
      (p, setData d slug p)
    else (page2, d)
  let s2 :=
    if s1.1.links ≠ some links then
      let p := { s1.1 with links := some links }
      (p, setData s1.2 slug p)
    else s1
  ⟨s2.1, s2.2, false⟩

/-- Merge an article dict into a page, like `page.update(article)`
(app_factory.py line 219): the article's keys overwrite the page's. -/
def pageUpdate (p : Page) (a : Article) : Page :=
  { p with title := some a.title, excerpt := some a.excerpt, body := some a.body,
           generated_at := some a.generated_at, generator := some a.generator,
           model := some a.model, topic := some a.topic }

/-- The generation branch (app_factory.py lines 205–228): generate outside
the lock, then reload, merge the article, stamp bookkeeping fields and
persist. -/
def ensureGen (slug : String) (d : SiteData) (tSeed : String) (kSeed : List String)
    (hRef : String) (links : List Link) (go : GenOracle) : EnsureResult :=
  let article := generate_article tSeed kSeed hRef links go
  let pageB := (d.pages.lookup slug).getD (emptyPage slug)
  let pageC := pageUpdate pageB article
  let pageD := { pageC with
    links := some links
    host := some hRef
    keywords := some kSeed
    topic := some article.topic
    updated_at := some go.now }
  ⟨pageD, setData d slug pageD, true⟩

/-- Link-building oracles of one `_ensure_page` call (the shuffles and
random labels inside its `build_link_set(slug, data)` call). -/
structure LinkOracle where
  extSh : List ExtLink := []
  intSh : List String := []
  fbSh : List String := []
  rndSub : Nat → String := fun _ => ""
  rndHome : String := ""

/-- The page record after loading (or creating) and applying the metadata
overrides (app_factory.py lines 169–181). -/
def ensureSeedPage (slug : String) (a : EnsureArgs) (d : SiteData) : Page :=
  applyOverrides ((d.pages.lookup slug).getD (emptyPage slug)) a

/-- The `build_link_set(slug, data)` call of `_ensure_page`
(app_factory.py line 170): desired defaults to 6 and no current host is
passed. -/
def ensureLinks (slug : String) (d : SiteData) (lo : LinkOracle) : List Link :=
  build_link_set slug d 6 none lo.extSh lo.intSh lo.fbSh lo.rndSub lo.rndHome

/-- `_ensure_page` (app_factory.py lines 156–228) as a single sequential
call on snapshot `d` (which also acts as the persisted store).  The
`min_words`/`max_words`/`references` parameters only shape the generation
prompt and are not modelled.  Note `build_link_set` is called without a
current host, and generation happens between the two `PAGE_LOCK` blocks
(the interleaving model below exercises that). -/
def ensurePage (slug : String) (a : EnsureArgs) (d : SiteData)
    (lo : LinkOracle) (go : GenOracle) : EnsureResult :=
  let page2 := ensureSeedPage slug a d
  let links := ensureLinks slug d lo
  if needsGeneration a.force page2 then
    ensureGen slug d (topicSeed slug page2) (keywordSeed page2 d.settings)
      (hostRef a page2) links go
  else
    ensureNoGen slug a d page2 links go.now

/-! ## Interleaving model of two concurrent `_ensure_page` calls

`PAGE_LOCK` (app_factory.py line 35) guards two critical sections of
`_ensure_page`: the first loads the snapshot and decides whether generation
is needed (returning early on the no-generation branch), the second merges
and persists the generated article.  `generate_article` itself runs
*between* them, outside the lock.  Each lock-protected section is one
atomic phase; a schedule is a list of booleans naming which of the two
threads takes the next step. -/

/-- Phase of one in-flight `_ensure_page(slug, force=False)` call. -/
inductive EPhase
  | check
  | gen
  | commit
  | finished
deriving DecidableEq, Repr

/-- One thread: its phase and the `needs_generation` flag its first locked
section computed. -/
structure EThread where
  ph : EPhase := .check
  needs : Bool := false
deriving DecidableEq, Repr

/-- Shared system state for two concurrent calls on one slug: the persisted
body for that slug, both threads, and the number of `generate_article`
invocations so far. -/
structure ESys where
  store : Option String := none
  t1 : EThread := {}
  t2 : EThread := {}
  gens : Nat := 0
deriving DecidableEq, Repr

/-- Python truthiness of the stored body (`not page.get("body")`). -/
def storedBodyEmpty : Option String → Bool
  | none => true
  | some b => b = ""

/-- One atomic step of one thread.  `check` is the first `with PAGE_LOCK`
block: with `force=False`, generation is needed iff the stored body is
falsy; if not needed the call returns at once (app_factory.py lines
193–203).  `gen` is the unlocked `generate_article` call (line 205).
`commit` is the second `with PAGE_LOCK` block persisting the article body
(lines 216–228). -/
def threadStep (genBody : String) (store : Option String) (t : EThread) :
    EThread × Option String × Nat :=
  match t.ph with
  | .check =>
    if storedBodyEmpty store then ({ ph := .gen, needs := true }, store, 0)
    else ({ ph := .finished, needs := false }, store, 0)
  | .gen => ({ t with ph := .commit }, store, 1)
  | .commit => ({ t with ph := .finished }, some genBody, 0)
  | .finished => (t, store, 0)

/-- Scheduler step: `true` runs thread 1, `false` runs thread 2.  `b1`/`b2`
are the two calls' generated article bodies. -/
def sysStep (b1 b2 : String) (s : ESys) (turn1 : Bool) : ESys :=
  if turn1 then
    let r := threadStep b1 s.store s.t1
    { s with t1 := r.1, store := r.2.1, gens := s.gens + r.2.2 }
  else
    let r := threadStep b2 s.store s.t2
    { s with t2 := r.1, store := r.2.1, gens := s.gens + r.2.2 }

/-- Run a schedule. -/
def runSched (b1 b2 : String) (sched : List Bool) (s : ESys) : ESys :=
  sched.foldl (sysStep b1 b2) s

/-- Both calls have returned. -/
def schedDone (s : ESys) : Prop := s.t1.ph = .finished ∧ s.t2.ph = .finished

/-! ## BatchOrchestrator: `auto_build_stream` (app_factory.py lines 588–655) -/

/-- `count = max(1, min(count, 30))` (app_factory.py line 598), applied to
the already-parsed integer query parameter. -/
def clampCount (c : Int) : Nat := (max 1 (min c 30)).toNat

/-- One batch job (`{"slug": ..., "topic": ..., "keywords": ...}`). -/
structure BatchJob where
  slug : String
  topic : Option String := none
  keywords : Option (List String) := none
deriving DecidableEq, Repr

/-- The degraded page substituted when a job's `_ensure_page` raises
(app_factory.py line 639): `{"title": slug, "slug": slug, "excerpt":
"生成失败"}`. -/
def degradedPage (slug : String) : Page :=
  { slug := slug, title := some slug, excerpt := some "生成失败" }

/-- One progress payload (app_factory.py lines 640–649). -/
structure ProgressEvent where
  progress : Nat
  total : Nat
  title : String
  slug : String
  topic : Option String
  updated_at : Option String
  generator : String
  preview : String
deriving DecidableEq, Repr

/-- One server-sent event of the stream. -/
inductive StreamEvent
  | progress (e : ProgressEvent)
  | done
deriving DecidableEq, Repr

/-- Build the progress payload for job number `idx` (0-based) whose
`future.result()` either returned a page or raised (`res = none`). -/
def mkProgressEvent (total idx : Nat) (job : BatchJob) (res : Option Page) : ProgressEvent :=
  let page := res.getD (degradedPage job.slug)
  { progress := idx + 1, total := total,
    title := page.title.getD job.slug,
    slug := job.slug,
    topic := job.topic,
    updated_at := page.updated_at,
    generator := page.generator.getD "unknown",
    preview := pyTake 80 (pyOr (page.excerpt.getD "") (page.topic.getD "")) }

/-- The progress events in completion order (the `for idx, future in
enumerate(as_completed(futures))` loop, app_factory.py lines 633–650). -/
def progressEvents (total : Nat) : Nat → List (BatchJob × Option Page) → List StreamEvent
  | _, [] => []
  | idx, c :: rest =>
    .progress (mkProgressEvent total idx c.1 c.2) :: progressEvents total (idx + 1) rest

/-- The full event stream of `auto_build_stream`'s `_generate`: one progress
event per completed job, then the terminal `{"status": "done"}` event
(app_factory.py line 651).  `completions` lists the jobs in completion
order with their outcomes (`none` = the job raised). -/
def autoBuildEvents (total : Nat) (completions : List (BatchJob × Option Page)) :
    List StreamEvent :=
  progressEvents total 0 completions ++ [.done]

/-- The slugs carried by the progress events of a stream. -/
def eventSlugs (evs : List StreamEvent) : List String :=
  evs.filterMap (fun e => match e with | .progress p => some p.slug | .done => none)

/-! ## Storage: the view-stat merge of `save_data` and `record_view`
(storage.py lines 250–270 and 312–320) -/

/-- `existing_views.get(slug, 0)` on the view-stat table. -/
def viewGet (l : List (String × Int)) (s : String) : Int := (l.lookup s).getD 0

/-- The view-stat merge inside `save_data` (storage.py lines 250–270): every
incoming count is max-merged with the stored count; stored counts absent
from the incoming snapshot survive only for slugs among the saved pages;
the table is then rewritten to exactly the merged map. -/
def save_data_merge_views (existing incoming : List (String × Int))
    (pageSlugs : List String) : List (String × Int) :=
  let m1 := incoming.map (fun sv => (sv.1, max sv.2 (viewGet existing sv.1)))
  m1 ++ existing.filter (fun sv => (m1.lookup sv.1).isNone && pageSlugs.contains sv.1)

/-- `record_view` (storage.py lines 312–320): `INSERT ... VALUES(?, 1) ON
CONFLICT(slug) DO UPDATE SET views = views + 1`. -/
def record_view (stats : List (String × Int)) (slug : String) : List (String × Int) :=
  if (stats.lookup slug).isSome then
    stats.map (fun sv => if sv.1 = slug then (sv.1, sv.2 + 1) else sv)
  else stats ++ [(slug, 1)]

/-! ## Shared lemmas -/

/-- Lookup distributes over append, preferring the left list. -/
theorem lookup_append_pair {β : Type} (l1 l2 : List (String × β)) (s : String) :
    (l1 ++ l2).lookup s = ((l1.lookup s).or (l2.lookup s)) := by
  induction l1 with
  | nil => simp [List.lookup]
  | cons h t ih =>
    by_cases hh : s = h.1
    · simp [List.lookup, hh]
    · have hb : (s == h.1) = false := by simpa using hh
      simpa [List.lookup, hb] using ih

/-- Lookup after a value-only map. -/
theorem lookup_map_value {β γ : Type} (f : String × β → γ) (l : List (String × β)) (s : String) :
    (l.map (fun sv => (sv.1, f sv))).lookup s
      = (l.find? (fun sv => sv.1 == s)).map f := by
  induction l with
  | nil => simp [List.lookup]
  | cons h t ih =>
    by_cases hh : s = h.1
    · simp [List.lookup, List.find?, hh]
    · have hb : (s == h.1) = false := by simpa using hh
      have hb' : (h.1 == s) = false := by simpa using fun e => hh e.symm
      simp [List.lookup, List.find?, hb, hb', ih]

/-- Lookup is `find?` on the key followed by the second projection. -/
theorem lookup_eq_find {β : Type} (l : List (String × β)) (s : String) :
    l.lookup s = (l.find? (fun sv => sv.1 == s)).map Prod.snd := by
  induction l with
  | nil => simp [List.lookup]
  | cons h t ih =>
    by_cases hh : s = h.1
    · simp [List.lookup, List.find?, hh]
    · have hb : (s == h.1) = false := by simpa using hh
      have hb' : (h.1 == s) = false := by simpa using fun e => hh e.symm
      simp [List.lookup, List.find?, hb, hb', ih]

/-- Lookup after filtering by a key predicate. -/
theorem lookup_filter_key {β : Type} (q : String → Bool) (l : List (String × β)) (s : String) :
    (l.filter (fun sv => q sv.1)).lookup s = if q s then l.lookup s else none := by
  induction l with
  | nil => simp [List.lookup]
  | cons h t ih =>
    rw [List.filter_cons]
    by_cases hh : s = h.1
    · have hbs : (s == h.1) = true := by simpa using hh
      cases hq : q h.1
      · have hqs : q s = false := by rw [hh, hq]
        simp only [Bool.false_eq_true, if_false, ih, hqs]
      · have hqs : q s = true := by rw [hh, hq]
        simp [List.lookup, hbs, hqs]
    · have hb : (s == h.1) = false := by simpa using hh
      cases hq : q h.1
      · simp only [Bool.false_eq_true, if_false, ih]
        by_cases hqs : q s
        · simp [hqs, List.lookup, hb]
        · simp [hqs]
      · simp only [if_true]
        simp only [List.lookup, hb]
        rw [ih]

/-- Updating an existing binding: lookup finds the new value. -/
theorem lookup_map_update (ps : List (String × Page)) (slug : String) (p : Page)
    (hs : (ps.lookup slug).isSome = true) :
    (ps.map (fun kv => if kv.1 = slug then (kv.1, p) else kv)).lookup slug = some p := by
  induction ps with
  | nil => simp [List.lookup] at hs
  | cons hd t ih =>
    rw [List.map_cons]
    by_cases hh : hd.1 = slug
    · rw [if_pos hh]
      have hbs : (slug == hd.1) = true := by simpa using hh.symm
      simp [List.lookup, hbs]
    · rw [if_neg hh]
      have hb : (slug == hd.1) = false := by simpa using fun e => hh e.symm
      simp only [List.lookup, hb] at hs ⊢
      exact ih hs

/-- Lookup after the dict-assignment `setPage` always finds the new page. -/
theorem lookup_setPage (ps : List (String × Page)) (slug : String) (p : Page) :
    (setPage ps slug p).lookup slug = some p := by
  unfold setPage
  cases hl : ps.lookup slug with
  | none =>
    simp only [hl, Option.isSome_none, Bool.false_eq_true, if_false]
    have : (ps ++ [(slug, p)]).lookup slug = ((ps.lookup slug).or (([(slug, p)] : List (String × Page)).lookup slug)) := by
      induction ps with
      | nil => simp [List.lookup]
      | cons h t ih2 =>
        by_cases hh : slug = h.1
        · simp [List.lookup, hh]
        · have hb : (slug == h.1) = false := by simpa using hh
          simp only [List.cons_append, List.lookup, hb]
          exact ih2 (by simpa [List.lookup, hb] using hl)
    rw [this, hl]
    simp [List.lookup]
  | some q =>
    simp only [hl, Option.isSome_some, if_true]
    exact lookup_map_update ps slug p (by simp [hl])

/-- Deciding `schedDone` by computation. -/
instance (s : ESys) : Decidable (schedDone s) := by
  unfold schedDone; infer_instance

/-- Lookup after `record_view`'s conflict-update keeps every stored count,
increasing the touched slug's count by one. -/
theorem lookup_record_update (stats : List (String × Int)) (slug s : String) (v : Int)
    (h : stats.lookup s = some v) :
    ∃ v', (stats.map (fun sv => if sv.1 = slug then (sv.1, sv.2 + 1) else sv)).lookup s
            = some v' ∧ v ≤ v' := by
  induction stats with
  | nil => simp [List.lookup] at h
  | cons hd t ih =>
    rw [List.map_cons]
    by_cases hh : s = hd.1
    · have hbs : (s == hd.1) = true := by simpa using hh
      have hv : hd.2 = v := by simpa [List.lookup, hbs] using h
      by_cases hsl : hd.1 = slug
      · rw [if_pos hsl]
        refine ⟨hd.2 + 1, ?_, by omega⟩
        simp [List.lookup, hbs]
      · rw [if_neg hsl]
        refine ⟨v, ?_, le_refl v⟩
        simp [List.lookup, hbs, hv]
    · have hb : (s == hd.1) = false := by simpa using hh
      have ht : t.lookup s = some v := by simpa [List.lookup, hb] using h
      obtain ⟨v', hv', hle⟩ := ih ht
      refine ⟨v', ?_, hle⟩
      by_cases hsl : hd.1 = slug
      · rw [if_pos hsl]
        simpa [List.lookup, hb] using hv'
      · rw [if_neg hsl]
        simpa [List.lookup, hb] using hv'

/-! ## Claim C8: view-count monotonicity of `save_data` and `record_view` -/

/-- C8.  For every save, a slug present in the persisted view-stat table has
a count at least as large as both its incoming count and its previously
stored count (when those exist); and `record_view` never lowers a stored
count.  This is the monotonic-merge invariant of storage.py lines 250–270
and 312–320. -/
theorem c8_view_counts_monotone :
    (∀ (existing incoming : List (String × Int)) (pageSlugs : List String) (s : String) (v : Int),
      (save_data_merge_views existing incoming pageSlugs).lookup s = some v →
        (incoming.lookup s).getD v ≤ v ∧ (existing.lookup s).getD v ≤ v) ∧
    (∀ (stats : List (String × Int)) (slug s : String) (v : Int),
      stats.lookup s = some v →
        ∃ v', (record_view stats slug).lookup s = some v' ∧ v ≤ v') := by
  constructor
  · intro existing incoming pageSlugs s v h
    unfold save_data_merge_views at h
    rw [lookup_append_pair] at h
    have hm1 := lookup_map_value (fun sv => max sv.2 (viewGet existing sv.1)) incoming s
    have hinc := lookup_eq_find incoming s
    cases hf : incoming.find? (fun sv => sv.1 == s) with
    | some sv =>
      have hkey : sv.1 = s := by
        have := List.find?_some hf
        simpa using this
      rw [hf] at hm1 hinc
      rw [hm1] at h
      simp only [Option.map_some', Option.or_some] at h
      obtain rfl : max sv.2 (viewGet existing sv.1) = v := by
        exact Option.some.inj h
      constructor
      · rw [hinc]
        simp only [Option.map_some', Option.getD_some]
        exact le_max_left _ _
      · cases he : existing.lookup s with
        | none => simp
        | some ev =>
          simp only [Option.getD_some]
          have hv : viewGet existing sv.1 = ev := by rw [hkey]; simp [viewGet, he]
          rw [← hv]
          exact le_max_right _ _
    | none =>
      rw [hf] at hm1 hinc
      simp only [Option.map_none'] at hm1 hinc
      rw [hm1] at h
      simp only [Option.or] at h
      have hq := lookup_filter_key
        (fun k => ((incoming.map (fun sv => (sv.1, max sv.2 (viewGet existing sv.1)))).lookup k).isNone
          && pageSlugs.contains k) existing s
      have h' : (existing.filter (fun sv =>
          ((incoming.map (fun sv => (sv.1, max sv.2 (viewGet existing sv.1)))).lookup sv.1).isNone
            && pageSlugs.contains sv.1)).lookup s = some v := h
      rw [hq] at h'
      constructor
      · rw [hinc]; simp
      · by_cases hc : (((incoming.map (fun sv => (sv.1, max sv.2 (viewGet existing sv.1)))).lookup s).isNone
            && pageSlugs.contains s) = true
        · rw [if_pos hc] at h'
          rw [h']; simp
        · rw [if_neg hc] at h'
          exact absurd h' (by simp)
  · intro stats slug s v h
    unfold record_view
    by_cases hs : (stats.lookup slug).isSome
    · rw [if_pos hs]
      exact lookup_record_update stats slug s v h
    · rw [if_neg hs]
      refine ⟨v, ?_, le_refl v⟩
      rw [lookup_append_pair, h]
      rfl

/-- C8 witness: the monotonic merge and the conflict-update at concrete
inputs. -/
theorem c8_view_counts_monotone_witness :
    ((([("a", (3 : Int))] : List (String × Int)).lookup "a").getD 5 ≤ (5 : Int) ∧
     (([("a", (5 : Int))] : List (String × Int)).lookup "a").getD 5 ≤ (5 : Int)) ∧
    (∃ v', (record_view [("a", (5 : Int))] "a").lookup "a" = some v' ∧ (5 : Int) ≤ v') :=
  ⟨c8_view_counts_monotone.1 [("a", 5)] [("a", 3)] [] "a" 5 (by decide),
   c8_view_counts_monotone.2 [("a", 5)] "a" "a" 5 (by decide)⟩

/-! ## Claim C10: counts for slugs absent from the saved snapshot are dropped -/

/-- C10.  When a slug appears neither in the incoming `view_stats` nor among
the incoming pages, `save_data`'s rewrite of the view-stat table drops its
stored count instead of merging it (the two `continue` guards of storage.py
lines 259–264 followed by `DELETE FROM view_stats`). -/
theorem c10_absent_view_counts_dropped (existing incoming : List (String × Int))
    (pageSlugs : List String) (s : String)
    (hinc : incoming.lookup s = none) (hpg : pageSlugs.contains s = false) :
    (save_data_merge_views existing incoming pageSlugs).lookup s = none := by
  unfold save_data_merge_views
  rw [lookup_append_pair]
  have hfind : incoming.find? (fun sv => sv.1 == s) = none := by
    have := lookup_eq_find incoming s
    rw [hinc] at this
    cases hf : incoming.find? (fun sv => sv.1 == s) with
    | none => rfl
    | some sv => rw [hf] at this; simp at this
  have hm1 : (incoming.map (fun sv => (sv.1, max sv.2 (viewGet existing sv.1)))).lookup s = none := by
    rw [lookup_map_value, hfind]; rfl
  rw [hm1]
  have hq := lookup_filter_key
    (fun k => ((incoming.map (fun sv => (sv.1, max sv.2 (viewGet existing sv.1)))).lookup k).isNone
      && pageSlugs.contains k) existing s
  have h2 : (existing.filter (fun sv =>
      ((incoming.map (fun sv => (sv.1, max sv.2 (viewGet existing sv.1)))).lookup sv.1).isNone
        && pageSlugs.contains sv.1)).lookup s = none := by
    rw [hq, hm1, hpg]
    simp
  rw [h2]
  rfl

/-- C10 witness: a stored count for a slug absent from both the incoming
stats and the incoming pages disappears. -/
theorem c10_absent_view_counts_dropped_witness :
    (save_data_merge_views [("a", (3 : Int))] [] []).lookup "a" = none :=
  c10_absent_view_counts_dropped [("a", 3)] [] [] "a" (by decide) (by decide)

/-! ## Claim C6: the generator tag of synthesized articles -/

/-- The backend oracle of the C6 scenario: the call succeeds and the content
`"\x7b\x7d"` (an empty JSON object) parses to the empty payload. -/
def emptyObjectOracle : GenOracle :=
  { result := .ok "\x7b\x7d",
    parse := fun s => if s = "\x7b\x7d" then some {} else none }

/-- C6 counterexample: on the successful backend path the article's
generator tag is `"deepseek"` (content.py line 311) — it is neither `"ai"`
nor `"local"`, so the claimed tag vocabulary `"ai" | "local"` is wrong. -/
theorem c6_generator_tag_cex :
    (generate_article "微服务" [] "example.com" [] emptyObjectOracle).generator = "deepseek" ∧
    (generate_article "微服务" [] "example.com" [] emptyObjectOracle).generator ≠ "ai" ∧
    (generate_article "微服务" [] "example.com" [] emptyObjectOracle).generator ≠ "local" := by
  refine ⟨rfl, ?_, ?_⟩ <;> decide

/-- C6 amended: every article carries `generator = "deepseek"` (backend
path, with the configured model identifier, default `"deepseek-chat"`) or
`generator = "local"` (fallback path, with model `"template"`). -/
theorem c6_generator_tags_amended (topic : String) (keywords : List String) (host : String)
    (links : List Link) (go : GenOracle) :
    ((generate_article topic keywords host links go).generator = "deepseek" ∧
      (generate_article topic keywords host links go).model = go.envModel.getD "deepseek-chat") ∨
    ((generate_article topic keywords host links go).generator = "local" ∧
      (generate_article topic keywords host links go).model = "template") := by
  rcases hr : go.result with _ | msg | content
  · right
    constructor <;> simp [generate_article, hr, fallback_article]
  · right
    constructor <;> simp [generate_article, hr, fallback_article]
  · cases hp : go.parse content with
    | none =>
      right
      constructor <;> simp [generate_article, hr, hp, fallback_article]
    | some payload =>
      left
      constructor <;> simp [generate_article, hr, hp]

/-! ## Claim C3: single-flight coalescing of concurrent ensure calls -/

/-- Number of `generate_article` invocations a thread has performed so far:
one once it has passed its `gen` step (phase `commit`, or `finished` after
needing generation). -/
def genContrib (t : EThread) : Nat :=
  match t.ph with
  | .commit => 1
  | .finished => if t.needs then 1 else 0
  | _ => 0

/-- Inductive invariant of the two-thread interleaving model: the
generation counter equals the threads' contributions, a non-empty stored
body implies a past generation, a thread that finished without generating
saw a non-empty body (hence a past generation), and a thread between its
check and its commit has `needs = true`. -/
def sysInv (s : ESys) : Prop :=
  s.gens = genContrib s.t1 + genContrib s.t2 ∧
  (storedBodyEmpty s.store = false → 1 ≤ s.gens) ∧
  (s.t1.ph = .finished ∧ s.t1.needs = false → 1 ≤ s.gens) ∧
  (s.t2.ph = .finished ∧ s.t2.needs = false → 1 ≤ s.gens) ∧
  (s.t1.ph = .gen ∨ s.t1.ph = .commit → s.t1.needs = true) ∧
  (s.t2.ph = .gen ∨ s.t2.ph = .commit → s.t2.needs = true)

/-- Each thread generates at most once. -/
theorem genContrib_le_one (t : EThread) : genContrib t ≤ 1 := by
  unfold genContrib
  cases t.ph
  all_goals dsimp only
  any_goals omega
  split <;> omega

/-- One thread step preserves the invariant (stated from the stepped
thread's point of view; `other` is the other thread's contribution). -/
theorem threadStep_inv (b : String) (store : Option String) (t : EThread)
    (other : Nat) (gens : Nat)
    (h1 : gens = genContrib t + other)
    (h2 : storedBodyEmpty store = false → 1 ≤ gens)
    (h3 : t.ph = .finished ∧ t.needs = false → 1 ≤ gens)
    (h5 : t.ph = .gen ∨ t.ph = .commit → t.needs = true) :
    let r := threadStep b store t
    (gens + r.2.2 = genContrib r.1 + other) ∧
    (storedBodyEmpty r.2.1 = false → 1 ≤ gens + r.2.2) ∧
    (r.1.ph = .finished ∧ r.1.needs = false → 1 ≤ gens + r.2.2) ∧
    (r.1.ph = .gen ∨ r.1.ph = .commit → r.1.needs = true) := by
  intro r
  cases hph : t.ph with
  | check =>
    by_cases he : storedBodyEmpty store = true
    · have hr : r = ({ ph := .gen, needs := true }, store, 0) := by
        simp [r, threadStep, hph, he]
      rw [hr]
      dsimp only [genContrib]
      have ht : genContrib t = 0 := by simp [genContrib, hph]
      refine ⟨by omega, ?_, ?_, ?_⟩
      · intro hh; have := h2 hh; omega
      · intro hh; exact absurd hh.1 (by simp)
      · intro _; rfl
    · have he' : storedBodyEmpty store = false := by
        cases hv : storedBodyEmpty store
        · rfl
        · exact absurd hv he
      have hr : r = ({ ph := .finished, needs := false }, store, 0) := by
        simp [r, threadStep, hph, he']
      rw [hr]
      dsimp only [genContrib]
      have ht : genContrib t = 0 := by simp [genContrib, hph]
      refine ⟨by simp; omega, ?_, ?_, ?_⟩
      · intro hh; have := h2 hh; omega
      · intro _; have := h2 he'; omega
      · intro hh; rcases hh with hh | hh <;> simp at hh
  | gen =>
    have hn : t.needs = true := h5 (Or.inl hph)
    have ht : genContrib t = 0 := by simp [genContrib, hph]
    have hr : r = ({ t with ph := .commit }, store, 1) := by
      simp [r, threadStep, hph]
    rw [hr]
    dsimp only [genContrib]
    refine ⟨by omega, ?_, ?_, ?_⟩
    · intro _; omega
    · intro hh; exact absurd hh.1 (by simp)
    · intro _; exact hn
  | commit =>
    have hn : t.needs = true := h5 (Or.inr hph)
    have hc : genContrib t = 1 := by simp [genContrib, hph]
    have hr : r = ({ t with ph := .finished }, some b, 0) := by
      simp [r, threadStep, hph]
    rw [hr]
    dsimp only [genContrib]
    rw [hn]
    refine ⟨by simp; omega, ?_, ?_, ?_⟩
    · intro _; omega
    · intro hh; exact absurd hh.2 (by simp)
    · intro hh; rcases hh with hh | hh <;> simp at hh
  | finished =>
    have hr : r = (t, store, 0) := by
      simp [r, threadStep, hph]
    rw [hr]
    refine ⟨by show gens + 0 = genContrib t + other; omega, ?_, ?_, ?_⟩
    · intro hh; have := h2 hh; omega
    · intro hh; have := h3 hh; omega
    · intro hh
      rw [hph] at hh
      rcases hh with hh | hh <;> simp at hh

/-- Scheduler steps preserve the invariant. -/
theorem sysInv_step (b1 b2 : String) (s : ESys) (turn : Bool) (h : sysInv s) :
    sysInv (sysStep b1 b2 s turn) := by
  obtain ⟨h1, h2, h3, h4, h5, h6⟩ := h
  cases turn
  · have key := threadStep_inv b2 s.store s.t2 (genContrib s.t1) s.gens
      (by omega) h2 h4 h6
    obtain ⟨k1, k2, k3, k4⟩ := key
    refine ⟨by simpa [sysStep] using by omega, ?_, ?_, ?_, ?_, ?_⟩
    · intro hh
      exact k2 (by simpa [sysStep] using hh)
    · intro hh
      have : 1 ≤ s.gens := h3 (by simpa [sysStep] using hh)
      simp [sysStep]; omega
    · intro hh
      have := k3 (by simpa [sysStep] using hh)
      simpa [sysStep] using this
    · intro hh
      exact h5 (by simpa [sysStep] using hh)
    · intro hh
      exact k4 (by simpa [sysStep] using hh)
  · have key := threadStep_inv b1 s.store s.t1 (genContrib s.t2) s.gens
      h1 h2 h3 h5
    obtain ⟨k1, k2, k3, k4⟩ := key
    refine ⟨by simpa [sysStep] using k1, ?_, ?_, ?_, ?_, ?_⟩
    · intro hh
      exact k2 (by simpa [sysStep] using hh)
    · intro hh
      have := k3 (by simpa [sysStep] using hh)
      simpa [sysStep] using this
    · intro hh
      have : 1 ≤ s.gens := h4 (by simpa [sysStep] using hh)
      simp [sysStep]; omega
    · intro hh
      exact k4 (by simpa [sysStep] using hh)
    · intro hh
      exact h6 (by simpa [sysStep] using hh)

/-- The initial state — never-before-seen slug, both calls at their first
lock acquisition — satisfies the invariant. -/
theorem sysInv_init : sysInv {} := by
  refine ⟨rfl, fun hh => ?_, fun hh => ?_, fun hh => ?_, fun hh => ?_, fun hh => ?_⟩
  · exact absurd hh (by decide)
  · exact absurd hh.1 (by decide)
  · exact absurd hh.1 (by decide)
  · rcases hh with hh | hh <;> exact absurd hh (by decide)
  · rcases hh with hh | hh <;> exact absurd hh (by decide)

/-- The invariant holds after running any schedule. -/
theorem sysInv_run (b1 b2 : String) (sched : List Bool) (s : ESys) (h : sysInv s) :
    sysInv (runSched b1 b2 sched s) := by
  induction sched generalizing s with
  | nil => exact h
  | cons turn rest ih => exact ih _ (sysInv_step b1 b2 s turn h)

/-- C3 counterexample: the fully concurrent interleaving — both calls pass
their first `PAGE_LOCK` section before either commits — is a complete
execution of two `_ensure_page` calls on a never-before-seen slug in which
`generate_article` runs twice, not once.  The lock is released before
generation (app_factory.py line 205 sits between the two `with PAGE_LOCK`
blocks), so the second caller's check still sees no body. -/
theorem c3_single_flight_cex :
    schedDone (runSched "x" "y" [true, false, true, false, true, false] {}) ∧
    (runSched "x" "y" [true, false, true, false, true, false] {}).gens = 2 := by
  decide

/-- C3 amended: two concurrent `_ensure_page` calls for the same
never-before-seen slug trigger one *or two* generations — at least one,
at most two — under every interleaving; exactly one is guaranteed only
when one call's commit precedes the other call's check. -/
theorem c3_generation_count_bounds (b1 b2 : String) (sched : List Bool)
    (h : schedDone (runSched b1 b2 sched {})) :
    1 ≤ (runSched b1 b2 sched {}).gens ∧ (runSched b1 b2 sched {}).gens ≤ 2 := by
  have hinv : sysInv (runSched b1 b2 sched {}) := sysInv_run b1 b2 sched {} sysInv_init
  revert h hinv
  generalize runSched b1 b2 sched {} = r
  intro h hinv
  obtain ⟨h1, h2, h3, h4, h5, h6⟩ := hinv
  obtain ⟨hd1, hd2⟩ := h
  constructor
  · rcases Nat.eq_zero_or_pos r.gens with hz | hp
    · exfalso
      have hc1 : genContrib r.t1 = 0 := by omega
      have hn1 : r.t1.needs = false := by
        by_cases hn : r.t1.needs = true
        · rw [show genContrib r.t1 = 1 by simp [genContrib, hd1, hn]] at hc1
          omega
        · simpa using hn
      have := h3 ⟨hd1, hn1⟩
      omega
    · exact hp
  · have g1 := genContrib_le_one r.t1
    have g2 := genContrib_le_one r.t2
    omega

/-- C3 witness: a sequential interleaving (first call runs to completion,
then the second) completes with a generation count in the stated bounds. -/
theorem c3_generation_count_bounds_witness :
    1 ≤ (runSched "u" "v" [true, true, true, false, false, false] {}).gens ∧
    (runSched "u" "v" [true, true, true, false, false, false] {}).gens ≤ 2 :=
  c3_generation_count_bounds "u" "v" [true, true, true, false, false, false] (by decide)

/-! ## Claim C5: batch stream shape -/

/-- The batch stream emits one progress event per completed job. -/
theorem progressEvents_length (total : Nat) (i : Nat) (l : List (BatchJob × Option Page)) :
    (progressEvents total i l).length = l.length := by
  induction l generalizing i with
  | nil => rfl
  | cons c rest ih => simp [progressEvents, ih]

/-- The `j`-th stream event is the progress payload of the `j`-th completed
job, numbered from `i`. -/
theorem progressEvents_getElem (total : Nat) (i : Nat) (l : List (BatchJob × Option Page))
    (j : Nat) (hj : j < l.length) :
    (progressEvents total i l)[j]? =
      some (.progress (mkProgressEvent total (i + j) (l.get ⟨j, hj⟩).1 (l.get ⟨j, hj⟩).2)) := by
  induction l generalizing i j with
  | nil => simp at hj
  | cons c rest ih =>
    cases j with
    | zero => simp [progressEvents]
    | succ j' =>
      have hj' : j' < rest.length := by simpa using hj
      have := ih (i + 1) j' hj'
      simpa [progressEvents, Nat.add_assoc, Nat.add_comm 1 j'] using this

/-- The progress events carry exactly the completed jobs' slugs, in
completion order. -/
theorem eventSlugs_progressEvents (total : Nat) (i : Nat) (l : List (BatchJob × Option Page)) :
    eventSlugs (progressEvents total i l) = l.map (fun c => c.1.slug) := by
  induction l generalizing i with
  | nil => rfl
  | cons c rest ih =>
    simp [progressEvents, eventSlugs, List.filterMap] at ih ⊢
    exact ⟨rfl, ih (i + 1)⟩

/-- C5.  The batch stream runs `N = max(1, min(count, 30))` jobs and emits
exactly `N` progress events — one per job, in completion order, with
`progress = index + 1` — followed by one terminal done event; a job whose
ensure call raised yields a degraded event whose title is the slug and
whose preview is the degraded text, instead of aborting the batch
(app_factory.py lines 588–655). -/
theorem c5_batch_stream_shape (cArg : Int) (jobs : List BatchJob)
    (completions : List (BatchJob × Option Page))
    (hJobs : jobs.length = clampCount cArg)
    (hPerm : (completions.map Prod.fst).Perm jobs) :
    (1 ≤ clampCount cArg ∧ clampCount cArg ≤ 30) ∧
    (autoBuildEvents (clampCount cArg) completions).length = clampCount cArg + 1 ∧
    (autoBuildEvents (clampCount cArg) completions).getLast? = some .done ∧
    (eventSlugs (autoBuildEvents (clampCount cArg) completions)).Perm
      (jobs.map BatchJob.slug) ∧
    (∀ (j : Nat) (hj : j < completions.length),
      (autoBuildEvents (clampCount cArg) completions)[j]? =
        some (.progress (mkProgressEvent (clampCount cArg) j
          (completions.get ⟨j, hj⟩).1 (completions.get ⟨j, hj⟩).2)) ∧
      (mkProgressEvent (clampCount cArg) j
          (completions.get ⟨j, hj⟩).1 (completions.get ⟨j, hj⟩).2).progress = j + 1) ∧
    (∀ (idx : Nat) (job : BatchJob),
      (mkProgressEvent (clampCount cArg) idx job none).title = job.slug ∧
      (mkProgressEvent (clampCount cArg) idx job none).preview = "生成失败") := by
  have hlen : completions.length = clampCount cArg := by
    have := hPerm.length_eq
    simpa [hJobs] using this
  refine ⟨by unfold clampCount; omega, ?_, ?_, ?_, ?_, ?_⟩
  · simp [autoBuildEvents, progressEvents_length, hlen]
  · rw [autoBuildEvents, List.getLast?_append]
    rfl
  · rw [autoBuildEvents, eventSlugs, List.filterMap_append]
    show ((eventSlugs (progressEvents _ 0 completions)) ++ eventSlugs [.done]).Perm _
    rw [eventSlugs_progressEvents]
    have : eventSlugs [.done] = [] := rfl
    rw [this, List.append_nil]
    have hmm : completions.map (fun c => c.1.slug)
        = (completions.map Prod.fst).map BatchJob.slug := by
      rw [List.map_map]; rfl
    rw [hmm]
    exact hPerm.map BatchJob.slug
  · intro j hj
    constructor
    · rw [autoBuildEvents, List.getElem?_append]
      have hj2 : j < (progressEvents (clampCount cArg) 0 completions).length := by
        rw [progressEvents_length]; exact hj
      rw [if_pos hj2]
      have := progressEvents_getElem (clampCount cArg) 0 completions j hj
      simpa using this
    · rfl
  · intro idx job
    exact ⟨rfl, rfl⟩

/-- C5 witness: a two-job batch (request for 2 pages) whose first job raised
and whose second succeeded. -/
theorem c5_batch_stream_shape_witness :
    (1 ≤ clampCount 2 ∧ clampCount 2 ≤ 30) ∧
    (autoBuildEvents (clampCount 2)
      [(⟨"s1", none, none⟩, none), (⟨"s2", none, none⟩, some (emptyPage "s2"))]).length
        = clampCount 2 + 1 ∧
    (autoBuildEvents (clampCount 2)
      [(⟨"s1", none, none⟩, none), (⟨"s2", none, none⟩, some (emptyPage "s2"))]).getLast?
        = some .done ∧
    (eventSlugs (autoBuildEvents (clampCount 2)
      [(⟨"s1", none, none⟩, none), (⟨"s2", none, none⟩, some (emptyPage "s2"))])).Perm
      ([⟨"s1", none, none⟩, ⟨"s2", none, none⟩].map BatchJob.slug) ∧
    (∀ (j : Nat) (hj : j < ([(⟨"s1", none, none⟩, none),
        (⟨"s2", none, none⟩, some (emptyPage "s2"))] :
          List (BatchJob × Option Page)).length),
      (autoBuildEvents (clampCount 2)
        [(⟨"s1", none, none⟩, none), (⟨"s2", none, none⟩, some (emptyPage "s2"))])[j]? =
        some (.progress (mkProgressEvent (clampCount 2) j
          (([(⟨"s1", none, none⟩, none), (⟨"s2", none, none⟩, some (emptyPage "s2"))] :
            List (BatchJob × Option Page)).get ⟨j, hj⟩).1
          (([(⟨"s1", none, none⟩, none), (⟨"s2", none, none⟩, some (emptyPage "s2"))] :
            List (BatchJob × Option Page)).get ⟨j, hj⟩).2)) ∧
      (mkProgressEvent (clampCount 2) j
          (([(⟨"s1", none, none⟩, none), (⟨"s2", none, none⟩, some (emptyPage "s2"))] :
            List (BatchJob × Option Page)).get ⟨j, hj⟩).1
          (([(⟨"s1", none, none⟩, none), (⟨"s2", none, none⟩, some (emptyPage "s2"))] :
            List (BatchJob × Option Page)).get ⟨j, hj⟩).2).progress = j + 1) ∧
    (∀ (idx : Nat) (job : BatchJob),
      (mkProgressEvent (clampCount 2) idx job none).title = job.slug ∧
      (mkProgressEvent (clampCount 2) idx job none).preview = "生成失败") :=
  c5_batch_stream_shape 2 [⟨"s1", none, none⟩, ⟨"s2", none, none⟩]
    [(⟨"s1", none, none⟩, none), (⟨"s2", none, none⟩, some (emptyPage "s2"))]
    (by decide) (List.Perm.refl _)

/-! ## Claim C2: link-set invariants of `build_link_set` -/

/-- Every link produced by the while loop is either one of the initial
links or an internal link to a target drawn from one of the candidate
stacks. -/
theorem fillLoopAux_mem (desired : Nat) (pages : List (String × Page)) (aB pB d0 : String)
    (rndSub : Nat → String) :
    ∀ (fuel k : Nat) (links : List Link) (int fb : List String),
      ∀ l ∈ fillLoopAux desired pages aB pB d0 rndSub fuel k links int fb,
        l ∈ links ∨ ∃ r t, (t ∈ int ∨ t ∈ fb) ∧ l = mkInternalLink pages aB pB d0 r t := by
  intro fuel
  induction fuel with
  | zero =>
    intro k links int fb l hl
    left
    exact hl
  | succ n ih =>
    intro k links int fb l hl
    rcases int with _ | ⟨t, rest⟩
    · rcases fb with _ | ⟨t, rest⟩
      · replace hl : l ∈ (if links.length < desired then links else links) := hl
        left
        split at hl <;> exact hl
      · replace hl : l ∈ (if links.length < desired then
            fillLoopAux desired pages aB pB d0 rndSub n (k + 1)
              (links ++ [mkInternalLink pages aB pB d0 (rndSub k) t]) [] rest
          else links) := hl
        split at hl
        · have hrec := ih (k + 1) (links ++ [mkInternalLink pages aB pB d0 (rndSub k) t])
            [] rest l hl
          rcases hrec with hmem | ⟨r, t', ht', heq⟩
          · rcases List.mem_append.mp hmem with h1 | h2
            · left; exact h1
            · right
              refine ⟨rndSub k, t, Or.inr (List.mem_cons_self t rest), ?_⟩
              simpa using h2
          · right
            refine ⟨r, t', Or.inr ?_, heq⟩
            have : t' ∈ rest := by
              rcases ht' with h | h
              · simp at h
              · exact h
            exact List.mem_cons_of_mem t this
        · left; exact hl
    · replace hl : l ∈ (if links.length < desired then
          fillLoopAux desired pages aB pB d0 rndSub n (k + 1)
            (links ++ [mkInternalLink pages aB pB d0 (rndSub k) t]) rest fb
        else links) := hl
      split at hl
      · have hrec := ih (k + 1) (links ++ [mkInternalLink pages aB pB d0 (rndSub k) t])
          rest fb l hl
        rcases hrec with hmem | ⟨r, t', ht', heq⟩
        · rcases List.mem_append.mp hmem with h1 | h2
          · left; exact h1
          · right
            refine ⟨rndSub k, t, Or.inl (List.mem_cons_self t rest), ?_⟩
            simpa using h2
        · right
          rcases ht' with h | h
          · exact ⟨r, t', Or.inl (List.mem_cons_of_mem t h), heq⟩
          · exact ⟨r, t', Or.inr h, heq⟩
      · left; exact hl

/-- Every link produced by the while loop is either one of the initial
links or an internal link to a target drawn from one of the candidate
stacks. -/
theorem fillLoop_mem (desired : Nat) (pages : List (String × Page)) (aB pB d0 : String)
    (rndSub : Nat → String) (k : Nat) (links : List Link) (int fb : List String) :
    ∀ l ∈ fillLoop desired pages aB pB d0 rndSub k links int fb,
      l ∈ links ∨ ∃ r t, (t ∈ int ∨ t ∈ fb) ∧ l = mkInternalLink pages aB pB d0 r t :=
  fillLoopAux_mem desired pages aB pB d0 rndSub (int.length + fb.length) k links int fb

/-- Cross-host candidates are page keys distinct from the slug. -/
theorem mem_internalCandidates {slug : String} {d : SiteData} {ch : Option String} {t : String}
    (h : t ∈ internalCandidates slug d ch) :
    t ≠ slug ∧ t ∈ d.pages.map Prod.fst := by
  unfold internalCandidates at h
  obtain ⟨kp, hkp, hfst⟩ := List.mem_map.mp h
  have hm := List.mem_filter.mp hkp
  have hb := hm.2
  simp only [Bool.and_eq_true, decide_eq_true_eq] at hb
  subst hfst
  exact ⟨hb.1, List.mem_map.mpr ⟨kp, hm.1, rfl⟩⟩

/-- Same-host fallback candidates are page keys distinct from the slug. -/
theorem mem_fallbackCandidates {slug : String} {d : SiteData} {ch : Option String} {t : String}
    (h : t ∈ fallbackCandidates slug d ch) :
    t ≠ slug ∧ t ∈ d.pages.map Prod.fst := by
  unfold fallbackCandidates at h
  have hm := List.mem_filter.mp h
  have hb := hm.2
  simp only [Bool.and_eq_true, decide_eq_true_eq] at hb
  exact ⟨hb.1, hm.1⟩

/-- Members of the repeated external pool come from the external-link
list. -/
theorem mem_extPool {d : SiteData} {desired : Nat} {e : ExtLink}
    (h : e ∈ extPool d desired) : e ∈ d.external_links := by
  unfold extPool at h
  obtain ⟨xs, hxs, he⟩ := List.mem_flatten.mp h
  obtain ⟨-, rfl⟩ := List.mem_replicate.mp hxs
  exact he

/-- C2 amended.  For every slug, data snapshot, desired bound, current host
and shuffle outcome: the produced link list has length at most `desired`;
every link is an external-pool link, the synthesized home link, or an
internal link whose target is a known page key different from the slug
(so no link targets the slug itself); and when the candidate universe is
empty and `desired ≥ 1`, the result is exactly one synthesized home link.
The `desired ≥ 1` guard is forced by the final `links[:desired]`
truncation (links.py line 85), which at `desired = 0` empties the list. -/
theorem c2_link_invariants (slug : String) (d : SiteData) (desired : Nat)
    (currentHost : Option String) (extSh : List ExtLink) (intSh fbSh : List String)
    (rndSub : Nat → String) (rndHome : String)
    (hExt : extSh.Perm (extPool d desired))
    (hInt : intSh.Perm (internalCandidates slug d currentHost))
    (hFb : fbSh.Perm (fallbackCandidates slug d currentHost)) :
    (build_link_set slug d desired currentHost extSh intSh fbSh rndSub rndHome).length ≤ desired ∧
    (∀ l ∈ build_link_set slug d desired currentHost extSh intSh fbSh rndSub rndHome,
      (∃ e ∈ d.external_links, l = mkExternalLink e) ∨
      (∃ hint, l = mkHomeLink hint) ∨
      (∃ r t, t ≠ slug ∧ t ∈ d.pages.map Prod.fst ∧
        l = mkInternalLink d.pages (anchorBaseOf d currentHost) (preferredBaseOf d currentHost)
              ((normDomains d).headD "") r t)) ∧
    (1 ≤ desired → d.pages = [] → d.domains = [] → d.external_links = [] →
      ∃ hint, build_link_set slug d desired currentHost extSh intSh fbSh rndSub rndHome
        = [mkHomeLink hint]) := by
  refine ⟨?_, ?_, ?_⟩
  · unfold build_link_set
    exact List.length_take_le _ _
  · intro l hl
    unfold build_link_set at hl
    have hl2 := List.mem_of_mem_take hl
    set extLinks := (if d.external_links ≠ [] then
        (extSh.take (extTakeCount desired)).map mkExternalLink else []) with hext
    set afterLoop := fillLoop desired d.pages (anchorBaseOf d currentHost)
      (preferredBaseOf d currentHost) ((normDomains d).headD "") rndSub 0 extLinks intSh fbSh
      with hafter
    by_cases hhome : afterLoop = [] ∧ (d.pages.lookup slug).isNone
    · rw [if_pos hhome] at hl2
      right; left
      simp at hl2
      exact ⟨_, hl2⟩
    · rw [if_neg hhome] at hl2
      have := fillLoop_mem desired d.pages (anchorBaseOf d currentHost)
        (preferredBaseOf d currentHost) ((normDomains d).headD "") rndSub
        0 extLinks intSh fbSh l hl2
      rcases this with hmem | ⟨r, t, ht, heq⟩
      · left
        rw [hext] at hmem
        by_cases he : d.external_links ≠ []
        · rw [if_pos he] at hmem
          obtain ⟨e, hee, rfl⟩ := List.mem_map.mp hmem
          have : e ∈ extSh := List.mem_of_mem_take hee
          exact ⟨e, mem_extPool (hExt.mem_iff.mp this), rfl⟩
        · rw [if_neg he] at hmem
          simp at hmem
      · right; right
        rcases ht with h | h
        · have := mem_internalCandidates (hInt.mem_iff.mp h)
          exact ⟨r, t, this.1, this.2, heq⟩
        · have := mem_fallbackCandidates (hFb.mem_iff.mp h)
          exact ⟨r, t, this.1, this.2, heq⟩
  · intro hd hp hdom hel
    have hpool : extPool d desired = [] := by simp [extPool, hel]
    have hExt2 : extSh = [] := (hpool ▸ hExt).eq_nil
    have hic : internalCandidates slug d currentHost = [] := by
      simp [internalCandidates, hp]
    have hfc : fallbackCandidates slug d currentHost = [] := by
      simp [fallbackCandidates, hp]
    have hInt2 : intSh = [] := (hic ▸ hInt).eq_nil
    have hFb2 : fbSh = [] := (hfc ▸ hFb).eq_nil
    subst hExt2
    subst hInt2
    subst hFb2
    unfold build_link_set
    dsimp only
    rw [hel]
    rw [if_neg (by simp : ¬(([] : List ExtLink) ≠ []))]
    have hfl : fillLoop desired d.pages (anchorBaseOf d currentHost)
        (preferredBaseOf d currentHost) ((normDomains d).headD "") rndSub 0 [] [] [] = [] := rfl
    rw [hfl]
    have hcond : (([] : List Link) = [] ∧ (d.pages.lookup slug).isNone) := by
      rw [hp]
      exact ⟨rfl, rfl⟩
    rw [if_pos hcond]
    obtain ⟨d', rfl⟩ : ∃ d', desired = d' + 1 := ⟨desired - 1, by omega⟩
    exact ⟨subHint rndHome (pyOr (anchorBaseOf d currentHost)
      (pyOr (preferredBaseOf d currentHost) ((normDomains d).headD ""))),
      by simp [List.take]⟩

/-- C2 counterexample: with `desired = 0`, an empty candidate universe and a
slug that is not a known page, `build_link_set` returns the empty list —
the final `links[:desired]` truncation drops the home link — so the claim's
"exactly one synthesized home link rather than being empty" fails as stated
for every desired bound. -/
theorem c2_home_link_cex :
    build_link_set "a" {} 0 none [] [] [] (fun _ => "") "" = [] ∧
    ¬ ∃ hint, build_link_set "a" {} 0 none [] [] [] (fun _ => "") "" = [mkHomeLink hint] := by
  refine ⟨by decide, ?_⟩
  rintro ⟨hint, h⟩
  rw [show build_link_set "a" {} 0 none [] [] [] (fun _ => "") "" = [] by decide] at h
  exact absurd h (by simp)

/-- C2 witness: the link invariants at a concrete snapshot with one sibling
page. -/
theorem c2_link_invariants_witness :
    (build_link_set "a" { pages := [("b", emptyPage "b")] } 6 none [] [] ["b"]
      (fun _ => "") "").length ≤ 6 :=
  (c2_link_invariants "a" { pages := [("b", emptyPage "b")] } 6 none [] [] ["b"]
    (fun _ => "") "" (by decide) (by decide) (by decide)).1

/-! ## Claim C7: placeholder sanitization -/

/-- A takeWhile over elements all failing the predicate is empty. -/
theorem takeWhile_nil_of_all {p : Char → Bool} {s : List Char}
    (h : ∀ c ∈ s, p c = false) : s.takeWhile p = [] := by
  cases s with
  | nil => rfl
  | cons c rest =>
    rw [List.takeWhile_cons, h c (List.mem_cons_self c rest)]
    rfl

/-- Appending a predicate-free suffix does not change a takeWhile. -/
theorem takeWhile_append_right_none {p : Char → Bool} {x sfx : List Char}
    (h : ∀ c ∈ sfx, p c = false) : (x ++ sfx).takeWhile p = x.takeWhile p := by
  rw [List.takeWhile_append]
  split
  · rw [takeWhile_nil_of_all h, List.append_nil]
    next hlen =>
    exact ((List.takeWhile_prefix p).eq_of_length hlen).symm ▸ rfl
  · rfl

/-- A takeWhile can only grow when the list is extended. -/
theorem takeWhile_length_le_append {p : Char → Bool} (x y : List Char) :
    (x.takeWhile p).length ≤ ((x ++ y).takeWhile p).length := by
  rw [List.takeWhile_append]
  split
  next hlen =>
    rw [hlen]
    simp
  · exact le_refl _

/-- A digit-free suffix cannot create the separator-then-digits tail of a
placeholder match. -/
theorem poolDigitsAfter_append_free {sfx m : List Char}
    (h1 : ∀ c ∈ sfx, c.isDigit = false)
    (h : poolDigitsAfter (m ++ sfx) = true) : poolDigitsAfter m = true := by
  unfold poolDigitsAfter digitRun at h ⊢
  rw [List.dropWhile_append] at h
  split at h
  · exfalso
    rw [takeWhile_nil_of_all (fun c hc => h1 c ((List.dropWhile_sublist _).mem hc))] at h
    simp at h
  · rwa [takeWhile_append_right_none h1] at h

/-- The separator-then-digits tail survives appending. -/
theorem poolDigitsAfter_append_mono {m b : List Char}
    (h : poolDigitsAfter m = true) : poolDigitsAfter (m ++ b) = true := by
  unfold poolDigitsAfter digitRun at h ⊢
  rw [List.dropWhile_append]
  split
  next hempty =>
    exfalso
    rw [List.isEmpty_iff.mp hempty] at h
    simp at h
  · have := takeWhile_length_le_append (p := Char.isDigit) (m.dropWhile isSepChar) b
    simp only [decide_eq_true_eq] at h ⊢
    omega

/-- A head match of the placeholder pattern survives appending. -/
theorem poolAt_append_mono {x b : List Char} (h : poolAt x = true) :
    poolAt (x ++ b) = true := by
  rcases x with _ | ⟨c1, _ | ⟨c2, _ | ⟨c3, _ | ⟨c4, r⟩⟩⟩⟩ <;>
    simp only [poolAt] at h
  · exact absurd h (by simp)
  · exact absurd h (by simp)
  · exact absurd h (by simp)
  · exact absurd h (by simp)
  · rw [List.cons_append, List.cons_append, List.cons_append, List.cons_append, poolAt]
    split at h
    next hc =>
      rw [if_pos hc]
      exact poolDigitsAfter_append_mono h
    next hc => exact absurd h (by simp)

/-- A suffix without digits and without the letters of `pool` cannot create
a head match of the placeholder pattern. -/
theorem poolAt_append_free {sfx : List Char}
    (h1 : ∀ c ∈ sfx, c.isDigit = false)
    (h2 : ∀ c ∈ sfx, c ≠ 'p' ∧ c ≠ 'o' ∧ c ≠ 'l') :
    ∀ x : List Char, poolAt (x ++ sfx) = true → poolAt x = true := by
  intro x h
  rcases x with _ | ⟨c1, _ | ⟨c2, _ | ⟨c3, _ | ⟨c4, r⟩⟩⟩⟩
  · rcases sfx with _ | ⟨d1, _ | ⟨d2, _ | ⟨d3, _ | ⟨d4, ds⟩⟩⟩⟩ <;>
      simp only [List.nil_append, poolAt] at h
    · exact absurd h (by simp)
    · exact absurd h (by simp)
    · exact absurd h (by simp)
    · exact absurd h (by simp)
    · split at h
      next hc => exact absurd hc.1 (h2 d1 (by simp)).1
      next => exact absurd h (by simp)
  · rcases sfx with _ | ⟨d1, _ | ⟨d2, _ | ⟨d3, ds⟩⟩⟩ <;>
      simp only [List.cons_append, List.nil_append, poolAt] at h
    · exact absurd h (by simp)
    · exact absurd h (by simp)
    · exact absurd h (by simp)
    · split at h
      next hc => exact absurd hc.2.1 (h2 d1 (by simp)).2.1
      next => exact absurd h (by simp)
  · rcases sfx with _ | ⟨d1, _ | ⟨d2, ds⟩⟩ <;>
      simp only [List.cons_append, List.nil_append, poolAt] at h
    · exact absurd h (by simp)
    · exact absurd h (by simp)
    · split at h
      next hc => exact absurd hc.2.2.1 (h2 d1 (by simp)).2.1
      next => exact absurd h (by simp)
  · rcases sfx with _ | ⟨d1, ds⟩ <;>
      simp only [List.cons_append, List.nil_append, poolAt] at h
    · exact absurd h (by simp)
    · split at h
      next hc => exact absurd hc.2.2.2 (h2 d1 (by simp)).2.2
      next => exact absurd h (by simp)
  · rw [List.cons_append, List.cons_append, List.cons_append, List.cons_append, poolAt] at h
    rw [poolAt]
    split at h
    next hc =>
      rw [if_pos hc]
      exact poolDigitsAfter_append_free h1 h
    next => exact absurd h (by simp)

/-- A string without the letter `p` has no placeholder match. -/
theorem searchPool_nil_of_no_p {s : List Char} (h : ∀ c ∈ s, c ≠ 'p') :
    searchPool s = false := by
  induction s with
  | nil => rfl
  | cons c rest ih =>
    rw [searchPool]
    have hc : c ≠ 'p' := h c (List.mem_cons_self c rest)
    have hrest : searchPool rest = false := ih (fun x hx => h x (List.mem_cons_of_mem c hx))
    rw [hrest]
    rcases rest with _ | ⟨c2, _ | ⟨c3, _ | ⟨c4, r⟩⟩⟩ <;> simp [poolAt, hc]

/-- A placeholder match in a prefix is a match in the whole string. -/
theorem searchPool_append_left {a b : List Char} (h : searchPool a = true) :
    searchPool (a ++ b) = true := by
  induction a with
  | nil => simp [searchPool] at h
  | cons c rest ih =>
    rw [searchPool] at h
    rw [List.cons_append, searchPool]
    rcases Bool.or_eq_true_iff.mp h with h | h
    · have := poolAt_append_mono (b := b) h
      rw [List.cons_append] at this
      rw [this]
      rfl
    · rw [ih h]
      simp

/-- Appending a suffix without digits and without the letters of `pool`
creates no new placeholder match. -/
theorem searchPool_append_free {sfx : List Char}
    (h1 : ∀ c ∈ sfx, c.isDigit = false)
    (h2 : ∀ c ∈ sfx, c ≠ 'p' ∧ c ≠ 'o' ∧ c ≠ 'l') :
    ∀ a : List Char, searchPool (a ++ sfx) = true → searchPool a = true := by
  intro a h
  induction a with
  | nil =>
    exfalso
    rw [List.nil_append] at h
    rw [searchPool_nil_of_no_p (fun c hc => (h2 c hc).1)] at h
    exact absurd h (by simp)
  | cons c rest ih =>
    rw [List.cons_append, searchPool] at h
    rw [searchPool]
    rcases Bool.or_eq_true_iff.mp h with h | h
    · have : poolAt ((c :: rest) ++ sfx) = true := by rwa [List.cons_append]
      rw [poolAt_append_free h1 h2 (c :: rest) this]
      rfl
    · rw [ih h]
      simp

/-- Lowercasing distributes over string append. -/
theorem pyLower_data_append (a b : String) :
    (pyLower (a ++ b)).data = (pyLower a).data ++ (pyLower b).data := by
  simp [pyLower, String.data_append]

/-- A pattern-free base stays pattern-free after appending a suffix without
digits and without the letters of `pool`. -/
theorem searchPool_base_suffix (base sfx : String)
    (hb : searchPool (pyLower base).data = false)
    (h1 : ∀ c ∈ (pyLower sfx).data, c.isDigit = false)
    (h2 : ∀ c ∈ (pyLower sfx).data, c ≠ 'p' ∧ c ≠ 'o' ∧ c ≠ 'l') :
    searchPool (pyLower (base ++ sfx)).data = false := by
  rw [pyLower_data_append]
  cases hs : searchPool ((pyLower base).data ++ (pyLower sfx).data)
  · rfl
  · exact absurd (searchPool_append_free h1 h2 _ hs) (by simp [hb])

/-- The topic rewrite templates stay pattern-free when the base is. -/
theorem searchPool_topicTemplates (base : String) (cT : Fin 4)
    (hb : searchPool (pyLower base).data = false) :
    searchPool (pyLower (topicTemplates base cT)).data = false := by
  rcases cT with ⟨i, hi⟩
  match i, hi with
  | 0, _ => exact searchPool_base_suffix base " 主题解读" hb (by decide) (by decide)
  | 1, _ => exact searchPool_base_suffix base " 体验速写" hb (by decide) (by decide)
  | 2, _ => exact searchPool_base_suffix base " 热点汇编" hb (by decide) (by decide)
  | 3, _ => exact searchPool_base_suffix base " 资讯脉络" hb (by decide) (by decide)

/-- The title replacement templates stay pattern-free when the topic is. -/
theorem searchPool_titleTemplates (topic : String) (c : Fin 3)
    (ht : searchPool (pyLower topic).data = false) :
    searchPool (pyLower (titleTemplates topic c)).data = false := by
  rcases c with ⟨i, hi⟩
  match i, hi with
  | 0, _ => exact searchPool_base_suffix topic " 深度解读" ht (by decide) (by decide)
  | 1, _ => exact searchPool_base_suffix topic " 主题速览" ht (by decide) (by decide)
  | 2, _ => exact searchPool_base_suffix topic " 资讯要点" ht (by decide) (by decide)

/-- C7 counterexample: sanitization can retain the `pool-<digits>`
placeholder.  With topic `"pool-4821"` and first keyword `"pool-4821"`,
`_formalize_topic` substitutes the keyword into its template, producing
`"pool-4821 主题解读"`, which still matches the code's own
`pool[\s_-]*\d{3,5}` search pattern; likewise `_safe_title` substitutes the
caller's topic, so a topic containing the pattern yields a title containing
it. -/
theorem c7_placeholder_retained_cex :
    searchPool (pyLower (formalizeTopic "pool-4821" ["pool-4821"] "example.com" 0 0)).data
      = true ∧
    searchPool (pyLower (safeTitle (some "pool-123") "pool-999" 0)).data = true := by
  constructor
  · decide
  · decide

/-- C7 amended: given topic `"pool-4821"`, the sanitized topic is free of
the `pool-<digits>` pattern provided the substitution base is — the first
keyword when truthy, else the host's pre-colon part (the pool `"站点"` case
is always free); and a returned title is free of the pattern whenever the
supplied topic is. -/
theorem c7_placeholder_sanitization_amended :
    (∀ (keywords : List String) (host : String) (cE cT : Fin 4),
      (∀ k, keywords.head? = some k → searchPool (pyLower k).data = false) →
      searchPool (pyLower (hostHead host)).data = false →
      searchPool (pyLower (formalizeTopic "pool-4821" keywords host cE cT)).data = false) ∧
    (∀ (title : Option String) (topic : String) (c : Fin 3),
      searchPool (pyLower topic).data = false →
      searchPool (pyLower (safeTitle title topic c)).data = false) := by
  constructor
  · intro keywords host cE cT hk hh
    unfold formalizeTopic
    dsimp only
    rw [if_neg (show ¬(pyStrip "pool-4821" = "") by decide)]
    rw [show pyStrip "pool-4821" = "pool-4821" by decide]
    rw [if_pos (show (fullPoolPage (pyLower "pool-4821").data
      || fullDigits36 (pyLower "pool-4821").data) = true by decide)]
    cases keywords with
    | nil => exact searchPool_topicTemplates "站点" cT (by decide)
    | cons k rest =>
      unfold pyOr
      dsimp only
      by_cases hk0 : k = ""
      · rw [if_pos hk0]
        exact searchPool_topicTemplates (hostHead host) cT hh
      · rw [if_neg hk0]
        exact searchPool_topicTemplates k cT (hk k rfl)
  · intro title topic c ht
    unfold safeTitle
    dsimp only
    cases hs : searchPool (pyLower (if pyStrip (title.getD "") = "" then topic
        else pyStrip (title.getD ""))).data
    · simp only [hs, Bool.false_eq_true, if_false]
    · simp only [hs, if_true]
      exact searchPool_titleTemplates topic c ht

/-- C7 witness: sanitization at a pattern-free keyword and a pattern-free
topic. -/
theorem c7_placeholder_sanitization_witness :
    searchPool (pyLower (formalizeTopic "pool-4821" ["seo"] "example.com" 0 0)).data = false ∧
    searchPool (pyLower (safeTitle (some "pool-123") "机器学习" 0)).data = false :=
  ⟨c7_placeholder_sanitization_amended.1 ["seo"] "example.com" 0 0
      (fun k hk => by
        simp only [List.head?_cons, Option.some.injEq] at hk
        subst hk
        decide)
      (by decide),
    c7_placeholder_sanitization_amended.2 (some "pool-123") "机器学习" 0 (by decide)⟩

/-! ## Claims C1, C4, C9: `_ensure_page` behaviour -/

/-- The metadata overrides leave every field except `topic` and `keywords`
unchanged, and those two take either the stored or the supplied value. -/
theorem applyOverrides_fields (p : Page) (a : EnsureArgs) :
    (applyOverrides p a).slug = p.slug ∧
    (applyOverrides p a).body = p.body ∧
    (applyOverrides p a).title = p.title ∧
    (applyOverrides p a).excerpt = p.excerpt ∧
    (applyOverrides p a).generator = p.generator ∧
    (applyOverrides p a).model = p.model ∧
    (applyOverrides p a).created_at = p.created_at ∧
    (applyOverrides p a).generated_at = p.generated_at ∧
    (applyOverrides p a).links = p.links ∧
    (applyOverrides p a).host = p.host ∧
    (applyOverrides p a).updated_at = p.updated_at ∧
    ((applyOverrides p a).topic = p.topic ∨ (applyOverrides p a).topic = a.topic) ∧
    ((applyOverrides p a).keywords = p.keywords ∨ (applyOverrides p a).keywords = a.keywords) := by
  unfold applyOverrides
  dsimp only
  by_cases ht : a.topic.getD "" = ""
  · by_cases hk : a.keywords.isSome
    · rw [if_pos ht, if_pos hk]
      exact ⟨rfl, rfl, rfl, rfl, rfl, rfl, rfl, rfl, rfl, rfl, rfl, Or.inl rfl, Or.inr rfl⟩
    · rw [if_pos ht, if_neg hk]
      exact ⟨rfl, rfl, rfl, rfl, rfl, rfl, rfl, rfl, rfl, rfl, rfl, Or.inl rfl, Or.inl rfl⟩
  · by_cases hk : a.keywords.isSome
    · rw [if_neg ht, if_pos hk]
      exact ⟨rfl, rfl, rfl, rfl, rfl, rfl, rfl, rfl, rfl, rfl, rfl, Or.inr rfl, Or.inr rfl⟩
    · rw [if_neg ht, if_neg hk]
      exact ⟨rfl, rfl, rfl, rfl, rfl, rfl, rfl, rfl, rfl, rfl, rfl, Or.inr rfl, Or.inl rfl⟩

/-- On every failing backend outcome — missing credential, request error,
or unparseable content — `generate_article` returns exactly the
deterministic fallback article. -/
theorem generate_article_failure (topic : String) (keywords : List String) (host : String)
    (links : List Link) (go : GenOracle)
    (hfail : go.result = .missingKey ∨ (∃ m, go.result = .requestError m) ∨
      (∃ c, go.result = .ok c ∧ go.parse c = none)) :
    generate_article topic keywords host links go
      = fallback_article (formalizeTopic topic keywords host go.cEmpty go.cTmpl)
          keywords links go.genAt := by
  rcases hfail with h | ⟨m, h⟩ | ⟨c, h, hp⟩
  · simp [generate_article, h]
  · simp [generate_article, h]
  · simp [generate_article, h, hp]

/-- `joinSep` keeps a non-empty head non-empty. -/
theorem joinSep_cons_ne_empty (sep : String) (s : String) (rest : List String)
    (hs : s ≠ "") : joinSep sep (s :: rest) ≠ "" := by
  cases rest with
  | nil => exact hs
  | cons r rs =>
    show s ++ sep ++ joinSep sep (r :: rs) ≠ ""
    intro h
    have hlen := congrArg String.length h
    rw [String.length_append, String.length_append] at hlen
    have hz : ("" : String).length = 0 := rfl
    have hpos : 0 < s.length := by
      cases s with
      | mk data =>
        cases data with
        | nil => exact absurd rfl hs
        | cons c cs => simp [String.length]
    omega

/-- The deterministic fallback article always has a non-empty body. -/
theorem fallback_article_body_ne_empty (topic : String) (keywords : List String)
    (links : List Link) (genAt : String) :
    (fallback_article topic keywords links genAt).body ≠ "" := by
  unfold fallback_article
  dsimp only
  apply joinSep_cons_ne_empty
  intro h
  have hlen := congrArg String.length h
  rw [String.length_append, String.length_append] at hlen
  have hz : ("" : String).length = 0 := rfl
  have ha : ("<p class=\"excerpt\">" : String).length = 19 := by decide
  omega

/-- Specification of the no-generation branch: nothing is generated; the
persisted snapshot is unchanged or holds exactly the returned page; every
field of the returned page except `links`, `host` and `updated_at` is the
loaded page's; `links` is refreshed only to the recomputed set; `host` and
`updated_at` change only when a truthy caller host differs from the stored
one. -/
theorem ensureNoGen_spec (slug : String) (a : EnsureArgs) (d : SiteData) (page2 : Page)
    (links : List Link) (now : String) :
    (ensureNoGen slug a d page2 links now).generated = false ∧
    ((ensureNoGen slug a d page2 links now).store = d ∨
      (ensureNoGen slug a d page2 links now).store.pages.lookup slug
        = some (ensureNoGen slug a d page2 links now).page) ∧
    (ensureNoGen slug a d page2 links now).page.body = page2.body ∧
    (ensureNoGen slug a d page2 links now).page.title = page2.title ∧
    (ensureNoGen slug a d page2 links now).page.excerpt = page2.excerpt ∧
    (ensureNoGen slug a d page2 links now).page.generator = page2.generator ∧
    (ensureNoGen slug a d page2 links now).page.model = page2.model ∧
    (ensureNoGen slug a d page2 links now).page.created_at = page2.created_at ∧
    (ensureNoGen slug a d page2 links now).page.generated_at = page2.generated_at ∧
    (ensureNoGen slug a d page2 links now).page.topic = page2.topic ∧
    (ensureNoGen slug a d page2 links now).page.keywords = page2.keywords ∧
    ((ensureNoGen slug a d page2 links now).page.links = page2.links ∨
      (ensureNoGen slug a d page2 links now).page.links = some links) ∧
    (((ensureNoGen slug a d page2 links now).page.host = page2.host ∧
        (ensureNoGen slug a d page2 links now).page.updated_at = page2.updated_at) ∨
      (∃ h, a.host = some h ∧ h ≠ "" ∧ page2.host ≠ some h ∧
        (ensureNoGen slug a d page2 links now).page.host = some h ∧
        (ensureNoGen slug a d page2 links now).page.updated_at = some now)) := by
  unfold ensureNoGen
  dsimp only
  split
  next hchange =>
    obtain ⟨h, hha, hne, hdiff⟩ : ∃ h, a.host = some h ∧ h ≠ "" ∧ page2.host ≠ some h := by
      cases hha : a.host with
      | none => rw [hha] at hchange; simp at hchange
      | some h =>
        rw [hha] at hchange
        simp only [Bool.and_eq_true, decide_eq_true_eq] at hchange
        exact ⟨h, rfl, hchange.1, hchange.2⟩
    rw [hha]
    split
    next hlinks =>
      refine ⟨rfl, Or.inr ?_, rfl, rfl, rfl, rfl, rfl, rfl, rfl, rfl, rfl, Or.inr rfl, ?_⟩
      · exact lookup_setPage _ _ _
      · exact Or.inr ⟨h, rfl, hne, hdiff, rfl, rfl⟩
    next hlinks =>
      refine ⟨rfl, Or.inr ?_, rfl, rfl, rfl, rfl, rfl, rfl, rfl, rfl, rfl, Or.inl rfl, ?_⟩
      · exact lookup_setPage _ _ _
      · exact Or.inr ⟨h, rfl, hne, hdiff, rfl, rfl⟩
  next hchange =>
    split
    next hlinks =>
      refine ⟨rfl, Or.inr ?_, rfl, rfl, rfl, rfl, rfl, rfl, rfl, rfl, rfl, Or.inr rfl, ?_⟩
      · exact lookup_setPage _ _ _
      · exact Or.inl ⟨rfl, rfl⟩
    next hlinks =>
      exact ⟨rfl, Or.inl rfl, rfl, rfl, rfl, rfl, rfl, rfl, rfl, rfl, rfl, Or.inl rfl,
        Or.inl ⟨rfl, rfl⟩⟩

/-- Specification of the generation branch: the generated article is merged
and persisted; the returned page is the stored one. -/
theorem ensureGen_spec (slug : String) (d : SiteData) (tSeed : String) (kSeed : List String)
    (hRef : String) (links : List Link) (go : GenOracle) :
    (ensureGen slug d tSeed kSeed hRef links go).generated = true ∧
    (ensureGen slug d tSeed kSeed hRef links go).store.pages.lookup slug
      = some (ensureGen slug d tSeed kSeed hRef links go).page ∧
    (ensureGen slug d tSeed kSeed hRef links go).page.body
      = some (generate_article tSeed kSeed hRef links go).body ∧
    (ensureGen slug d tSeed kSeed hRef links go).page.generator
      = some (generate_article tSeed kSeed hRef links go).generator := by
  unfold ensureGen
  dsimp only
  exact ⟨rfl, lookup_setPage _ _ _, rfl, rfl⟩

/-- The metadata overrides never touch the body. -/
theorem ensureSeedPage_body (slug : String) (a : EnsureArgs) (d : SiteData) :
    (ensureSeedPage slug a d).body = ((d.pages.lookup slug).getD (emptyPage slug)).body := by
  unfold ensureSeedPage
  exact (applyOverrides_fields _ a).2.1

/-- After any `_ensure_page` call the persisted snapshot holds a page for
the slug whose body equals the returned page's body. -/
theorem ensurePage_body_persisted (slug : String) (a : EnsureArgs) (d : SiteData)
    (lo : LinkOracle) (go : GenOracle) :
    ∃ p', (ensurePage slug a d lo go).store.pages.lookup slug = some p' ∧
      p'.body = (ensurePage slug a d lo go).page.body := by
  unfold ensurePage
  dsimp only
  split
  next hneed =>
    obtain ⟨-, hstore, -, -⟩ := ensureGen_spec slug d (topicSeed slug (ensureSeedPage slug a d))
      (keywordSeed (ensureSeedPage slug a d) d.settings)
      (hostRef a (ensureSeedPage slug a d)) (ensureLinks slug d lo) go
    exact ⟨_, hstore, rfl⟩
  next hneed =>
    have spec := ensureNoGen_spec slug a d (ensureSeedPage slug a d) (ensureLinks slug d lo) go.now
    have hbne : (ensureSeedPage slug a d).body.getD "" ≠ "" := by
      unfold needsGeneration at hneed
      simp only [Bool.or_eq_true, decide_eq_true_eq, not_or] at hneed
      exact hneed.2
    rcases spec.2.1 with hstore | hstore
    · cases hl : d.pages.lookup slug with
      | none =>
        exfalso
        have hb0 : (ensureSeedPage slug a d).body = none := by
          rw [ensureSeedPage_body, hl]
          rfl
        rw [hb0] at hbne
        exact hbne rfl
      | some p0 =>
        refine ⟨p0, by rw [hstore]; exact hl, ?_⟩
        have h1 : (ensureSeedPage slug a d).body = p0.body := by
          rw [ensureSeedPage_body, hl]
          rfl
        rw [spec.2.2.1, h1]
    · exact ⟨_, hstore, rfl⟩

/-- `_ensure_page` reduces to its generation branch when generation is
needed. -/
theorem ensurePage_gen_eq (slug : String) (a : EnsureArgs) (d : SiteData)
    (lo : LinkOracle) (go : GenOracle)
    (h : needsGeneration a.force (ensureSeedPage slug a d) = true) :
    ensurePage slug a d lo go
      = ensureGen slug d (topicSeed slug (ensureSeedPage slug a d))
          (keywordSeed (ensureSeedPage slug a d) d.settings)
          (hostRef a (ensureSeedPage slug a d)) (ensureLinks slug d lo) go := by
  unfold ensurePage
  dsimp only
  rw [if_pos h]

/-- `_ensure_page` reduces to its no-generation branch when the page
already has a body and `force` is false. -/
theorem ensurePage_noGen_eq (slug : String) (a : EnsureArgs) (d : SiteData)
    (lo : LinkOracle) (go : GenOracle)
    (h : needsGeneration a.force (ensureSeedPage slug a d) = false) :
    ensurePage slug a d lo go
      = ensureNoGen slug a d (ensureSeedPage slug a d) (ensureLinks slug d lo) go.now := by
  unfold ensurePage
  dsimp only
  rw [if_neg (by simp [h])]

/-- C1.  For every `_ensure_page` call that performs generation (forced, or
no stored body), and every failing backend outcome — missing credential,
network failure, or unparseable backend response — the call returns a page
(the embedding is total: no exception crosses the cache boundary) whose
body is exactly the deterministic fallback article's non-empty body, tagged
`generator = "local"`.  `generate_article` catches every failure
(content.py lines 286–343) and `build_link_set` is total on its inputs. -/
theorem c1_ensure_falls_back_never_raises (slug : String) (a : EnsureArgs) (d : SiteData)
    (lo : LinkOracle) (go : GenOracle)
    (hng : a.force = true ∨ ((d.pages.lookup slug).getD (emptyPage slug)).body.getD "" = "")
    (hfail : go.result = .missingKey ∨ (∃ m, go.result = .requestError m) ∨
      (∃ c, go.result = .ok c ∧ go.parse c = none)) :
    (ensurePage slug a d lo go).generated = true ∧
    (ensurePage slug a d lo go).page.body = some
      ((fallback_article
        (formalizeTopic (topicSeed slug (ensureSeedPage slug a d))
          (keywordSeed (ensureSeedPage slug a d) d.settings)
          (hostRef a (ensureSeedPage slug a d)) go.cEmpty go.cTmpl)
        (keywordSeed (ensureSeedPage slug a d) d.settings)
        (ensureLinks slug d lo) go.genAt).body) ∧
    (fallback_article
        (formalizeTopic (topicSeed slug (ensureSeedPage slug a d))
          (keywordSeed (ensureSeedPage slug a d) d.settings)
          (hostRef a (ensureSeedPage slug a d)) go.cEmpty go.cTmpl)
        (keywordSeed (ensureSeedPage slug a d) d.settings)
        (ensureLinks slug d lo) go.genAt).body ≠ "" ∧
    (ensurePage slug a d lo go).page.generator = some "local" := by
  have hneed : needsGeneration a.force (ensureSeedPage slug a d) = true := by
    unfold needsGeneration
    rcases hng with h | h
    · rw [h]; rfl
    · rw [ensureSeedPage_body]
      simp [h]
  have hart := generate_article_failure (topicSeed slug (ensureSeedPage slug a d))
    (keywordSeed (ensureSeedPage slug a d) d.settings)
    (hostRef a (ensureSeedPage slug a d)) (ensureLinks slug d lo) go hfail
  unfold ensurePage
  dsimp only
  rw [if_pos hneed]
  have spec := ensureGen_spec slug d (topicSeed slug (ensureSeedPage slug a d))
    (keywordSeed (ensureSeedPage slug a d) d.settings)
    (hostRef a (ensureSeedPage slug a d)) (ensureLinks slug d lo) go
  refine ⟨spec.1, ?_, fallback_article_body_ne_empty _ _ _ _, ?_⟩
  · rw [spec.2.2.1, hart]
  · rw [spec.2.2.2, hart]
    rfl

/-- C4 amended.  When the first `force=false` call leaves a *non-empty*
body `b`, a second `force=false` call with no intervening state change
finds that body, takes the no-generation branch, and returns the stored
body byte-identical. -/
theorem c4_idempotent_nonempty_body (slug : String) (a1 a2 : EnsureArgs) (d : SiteData)
    (lo1 lo2 : LinkOracle) (go1 go2 : GenOracle) (b : String)
    (hf1 : a1.force = false) (hf2 : a2.force = false)
    (hb : (ensurePage slug a1 d lo1 go1).page.body = some b) (hbne : b ≠ "") :
    (ensurePage slug a2 (ensurePage slug a1 d lo1 go1).store lo2 go2).page.body = some b ∧
    (ensurePage slug a2 (ensurePage slug a1 d lo1 go1).store lo2 go2).generated = false := by
  obtain ⟨p', hs, hbody⟩ := ensurePage_body_persisted slug a1 d lo1 go1
  have hseed : (ensureSeedPage slug a2 (ensurePage slug a1 d lo1 go1).store).body = some b := by
    rw [ensureSeedPage_body, hs]
    show p'.body = some b
    rw [hbody, hb]
  have hneed : needsGeneration a2.force
      (ensureSeedPage slug a2 (ensurePage slug a1 d lo1 go1).store) = false := by
    unfold needsGeneration
    rw [hf2, hseed]
    simpa using hbne
  have spec := ensureNoGen_spec slug a2 (ensurePage slug a1 d lo1 go1).store
    (ensureSeedPage slug a2 (ensurePage slug a1 d lo1 go1).store)
    (ensureLinks slug (ensurePage slug a1 d lo1 go1).store lo2) go2.now
  rw [ensurePage_noGen_eq slug a2 (ensurePage slug a1 d lo1 go1).store lo2 go2 hneed]
  exact ⟨by rw [spec.2.2.1, hseed], spec.1⟩

/-- C9 amended.  A `force=false` call on a page whose body is non-empty
never regenerates, and the persisted page keeps its body, title, excerpt,
generator, model, created_at and generated_at; `links` may only be
refreshed to the recomputed set, `host` (stamping `updated_at`) only to a
truthy caller host differing from the stored one, and `topic`/`keywords`
may only take the caller's explicitly supplied overrides. -/
theorem c9_no_regen_frame (slug : String) (a : EnsureArgs) (d : SiteData)
    (lo : LinkOracle) (go : GenOracle) (p0 : Page)
    (hf : a.force = false)
    (hp : d.pages.lookup slug = some p0)
    (hb : p0.body.getD "" ≠ "") :
    ∃ p', (ensurePage slug a d lo go).store.pages.lookup slug = some p' ∧
      p'.body = p0.body ∧ p'.title = p0.title ∧ p'.excerpt = p0.excerpt ∧
      p'.generator = p0.generator ∧ p'.model = p0.model ∧
      p'.created_at = p0.created_at ∧ p'.generated_at = p0.generated_at ∧
      (p'.links = p0.links ∨ p'.links = some (ensureLinks slug d lo)) ∧
      ((p'.host = p0.host ∧ p'.updated_at = p0.updated_at) ∨
        (∃ h, a.host = some h ∧ h ≠ "" ∧ p'.host = some h ∧ p'.updated_at = some go.now)) ∧
      (p'.topic = p0.topic ∨ p'.topic = a.topic) ∧
      (p'.keywords = p0.keywords ∨ p'.keywords = a.keywords) ∧
      (ensurePage slug a d lo go).generated = false := by
  obtain ⟨o1, o2, o3, o4, o5, o6, o7, o8, o9, o10, o11, o12, o13⟩ := applyOverrides_fields p0 a
  have hseed : ensureSeedPage slug a d = applyOverrides p0 a := by
    unfold ensureSeedPage
    rw [hp]
    rfl
  have hneed : needsGeneration a.force (ensureSeedPage slug a d) = false := by
    unfold needsGeneration
    rw [hf, hseed, o2]
    simpa using hb
  rw [ensurePage_noGen_eq slug a d lo go hneed]
  obtain ⟨hgen, hstore, hbody, htitle, hexc, hgtr, hmodel, hcreated, hgenat, htopic,
    hkw, hlinks, hhost⟩ := ensureNoGen_spec slug a d (ensureSeedPage slug a d)
      (ensureLinks slug d lo) go.now
  rcases hstore with hstore | hstore
  · refine ⟨p0, by rw [hstore]; exact hp, rfl, rfl, rfl, rfl, rfl, rfl, rfl,
      Or.inl rfl, Or.inl ⟨rfl, rfl⟩, Or.inl rfl, Or.inl rfl, hgen⟩
  · refine ⟨_, hstore, ?_, ?_, ?_, ?_, ?_, ?_, ?_, ?_, ?_, ?_, ?_, hgen⟩
    · rw [hbody, hseed, o2]
    · rw [htitle, hseed, o3]
    · rw [hexc, hseed, o4]
    · rw [hgtr, hseed, o5]
    · rw [hmodel, hseed, o6]
    · rw [hcreated, hseed, o7]
    · rw [hgenat, hseed, o8]
    · rcases hlinks with h | h
      · rw [h, hseed]
        exact Or.inl o9
      · exact Or.inr h
    · rcases hhost with ⟨h1, h2⟩ | ⟨h, hah, hne, hdiff, hh, hu⟩
      · left
        constructor
        · rw [h1, hseed, o10]
        · rw [h2, hseed, o11]
      · exact Or.inr ⟨h, hah, hne, hh, hu⟩
    · rcases o12 with h | h
      · rw [htopic, hseed, h]
        exact Or.inl rfl
      · rw [htopic, hseed, h]
        exact Or.inr rfl
    · rcases o13 with h | h
      · rw [hkw, hseed, h]
        exact Or.inl rfl
      · rw [hkw, hseed, h]
        exact Or.inr rfl

/-- A backend oracle whose call fails for want of a credential. -/
def failOracle : GenOracle := { result := .missingKey, parse := fun _ => none }

/-- C1 witness: a forced call on an empty store with a missing credential
generates (from the fallback). -/
theorem c1_ensure_falls_back_never_raises_witness :
    (ensurePage "a" { force := true } {} {} failOracle).generated = true :=
  (c1_ensure_falls_back_never_raises "a" { force := true } {} {} failOracle
    (Or.inl rfl) (Or.inl rfl)).1

/-- A store holding one page whose body is empty (a degenerate prior
generation), with no link candidates. -/
def emptyBodyState : SiteData :=
  { pages := [("a", { slug := "a", body := some "", topic := some "x" })] }

/-- C4 counterexample: two successive `force=false` calls with no
intervening state change can return different bodies.  The stored page has
an empty body (reachable: a parsed-but-empty backend payload with no links
renders to the empty string), so the second call regenerates — here via the
fallback — and its body differs from the first call's empty body.  In
particular the second call does *not* find a non-empty body. -/
theorem c4_idempotence_cex :
    (ensurePage "a" {} emptyBodyState {} emptyObjectOracle).page.body ≠
      (ensurePage "a" {}
        (ensurePage "a" {} emptyBodyState {} emptyObjectOracle).store {} failOracle).page.body ∧
    ({} : EnsureArgs).force = false ∧
    (ensurePage "a" {} emptyBodyState {} emptyObjectOracle).page.body = some "" := by
  refine ⟨by decide, rfl, by decide⟩

/-- C4 witness: two `force=false` calls on a page with body `"x"`. -/
theorem c4_idempotent_nonempty_body_witness :
    (ensurePage "a" {}
      (ensurePage "a" {} { pages := [("a", { slug := "a", body := some "x" })] } {}
        failOracle).store {} failOracle).page.body = some "x" ∧
    (ensurePage "a" {}
      (ensurePage "a" {} { pages := [("a", { slug := "a", body := some "x" })] } {}
        failOracle).store {} failOracle).generated = false :=
  c4_idempotent_nonempty_body "a" {} {} { pages := [("a", { slug := "a", body := some "x" })] }
    {} {} failOracle failOracle "x" rfl rfl (by decide) (by decide)

/-- A store holding one generated page with topic `"old"` and no stored
link set. -/
def topicOverrideState : SiteData :=
  { pages := [("a", { slug := "a", body := some "b", topic := some "old" })] }

/-- C9 counterexample: a `force=false` call that passes a `topic` override
on a page with a non-empty body persists the new topic when the recomputed
link set differs from the stored one — so fields other than `links` and
`host` can be updated, refuting the claim as stated. -/
theorem c9_topic_override_cex :
    ((ensurePage "a" { topic := some "new" } topicOverrideState {} failOracle).store.pages.lookup
        "a").map Page.topic = some (some "new") ∧
    (topicOverrideState.pages.lookup "a").map Page.topic = some (some "old") ∧
    (topicOverrideState.pages.lookup "a").map Page.body = some (some "b") ∧
    (ensurePage "a" { topic := some "new" } topicOverrideState {} failOracle).generated
      = false := by
  refine ⟨by decide, by decide, by decide, by decide⟩

/-- The stored page of the C9 witness state. -/
def frameWitnessPage : Page := { slug := "a", body := some "x", title := some "T" }

/-- The C9 witness state. -/
def frameWitnessState : SiteData := { pages := [("a", frameWitnessPage)] }

/-- C9 witness: the frame condition at a concrete store. -/
theorem c9_no_regen_frame_witness :
    ∃ p', (ensurePage "a" {} frameWitnessState {} failOracle).store.pages.lookup "a" = some p' ∧
      p'.body = frameWitnessPage.body ∧ p'.title = frameWitnessPage.title ∧
      p'.excerpt = frameWitnessPage.excerpt ∧
      p'.generator = frameWitnessPage.generator ∧ p'.model = frameWitnessPage.model ∧
      p'.created_at = frameWitnessPage.created_at ∧
      p'.generated_at = frameWitnessPage.generated_at ∧
      (p'.links = frameWitnessPage.links ∨
        p'.links = some (ensureLinks "a" frameWitnessState {})) ∧
      ((p'.host = frameWitnessPage.host ∧ p'.updated_at = frameWitnessPage.updated_at) ∨
        (∃ h, ({} : EnsureArgs).host = some h ∧ h ≠ "" ∧ p'.host = some h ∧
          p'.updated_at = some failOracle.now)) ∧
      (p'.topic = frameWitnessPage.topic ∨ p'.topic = ({} : EnsureArgs).topic) ∧
      (p'.keywords = frameWitnessPage.keywords ∨ p'.keywords = ({} : EnsureArgs).keywords) ∧
      (ensurePage "a" {} frameWitnessState {} failOracle).generated = false :=
  c9_no_regen_frame "a" {} frameWitnessState {} failOracle frameWitnessPage rfl
    (by decide) (by decide)
